import Mathlib

/-!
# The display panel of the UFC (`src/displpnl.cpp`)

A shallow embedding of `DisplPnl`, the class that renders cockpit state on a
character LCD and three LEDs, and of the diagnostic line it formats for every
keypad or encoder event.

* A C string is a `List Char`.
* The LCD and the LED pins are outside the class: every method returns the
  controller as it leaves it together with the calls it made on them, in order.
* `displpnl.h` is not among the sources at hand.  The constants and the one
  member type the code takes from it are the fields of `Header`.
* `sprintf_P` is an interpreter of the format string, so the templates
  `_LINE_KEY` and `_LINE_ENC` are kept as the source writes them.
-/

namespace Ufc

/-! ## What `displpnl.h` declares -/

/-- The declarations of `displpnl.h` the code depends on: the geometry of the
LCD (`LCD_COLS`, `LCD_ROWS`), the width in bits of the unsigned type of the
member `_debugLine`, and the values of the enumerators `LedWrn` and `LedClr`,
which index `_LedPin`. -/
structure Header where
  LCD_COLS : Nat
  LCD_ROWS : Nat
  debugLineBits : Nat
  LedWrn : Nat
  LedClr : Nat

/-- A 20 x 4 display, a `uint8_t` line counter, the warning LED first. -/
def header20x4 : Header :=
  { LCD_COLS := 20, LCD_ROWS := 4, debugLineBits := 8, LedWrn := 0, LedClr := 1 }

/-! ## The collaborators -/

/-- A call made on the LCD (`_Lcd`) or on a pin.  `setCursor` records its
arguments in the order of the call: column, then row. -/
inductive Call
  | clear
  | home
  | setCursor (col row : Nat)
  | print (text : List Char)
  | digitalWrite (pin value : Nat)
  deriving DecidableEq

/-- Tag of an input event; `EvNone` is not a valid argument of
`debugShowEvent`. -/
inductive EventId
  | EvNone
  | EvKpPress
  | EvKpRelease
  | EvEncCcwPress
  | EvEncCcwRelease
  | EvEncCwPress
  | EvEncCwRelease
  deriving DecidableEq

/-- Member `Kp` of an event: keypad and key. -/
structure KpEvent where
  KpId : Nat
  KeyId : Nat
  deriving DecidableEq

/-- An input event.  The code reads `Kp` for the keypad tags and `EncId` for
the encoder tags, never the other one. -/
structure Event where
  Id : EventId
  Kp : KpEvent
  EncId : Nat
  deriving DecidableEq

namespace Directx

/-- Action of a DirectX event.  The code names `AcRelease` only; `AcOther`
stands for every other enumerator. -/
inductive Action
  | AcRelease
  | AcOther (code : Nat)
  deriving DecidableEq

/-- The mapped output event, `Directx::Event_t`. -/
structure Event_t where
  Action : Action
  Button : Nat
  deriving DecidableEq

end Directx

/-! ## `sprintf_P` -/

/-- One variadic argument of `sprintf_P`. -/
inductive PfArg
  | u (n : Nat)
  | c (ch : Char)
  | s (str : List Char)
  deriving DecidableEq

/-- What has been read of a conversion specification after its `%`. -/
structure PfConv where
  left : Bool
  zero : Bool
  width : Nat
  deriving DecidableEq

/-- Pads a converted argument to the field width: on the right with blanks
under `-`, else on the left, with zeros for a number under `0`. -/
def pfPad (cv : PfConv) (numeric : Bool) (body : List Char) : List Char :=
  if cv.left then body ++ List.replicate (cv.width - body.length) ' '
  else if cv.zero && numeric then List.replicate (cv.width - body.length) '0' ++ body
  else List.replicate (cv.width - body.length) ' ' ++ body

/-- The formatting loop: `cv` is `none` in plain text and holds the flags and
width read so far inside a conversion.  The conversions are those the
templates use: `u`, `c`, `s` and `S`.  `none` is a malformed call: a
conversion the loop does not know, or one whose argument is missing or of
another kind. -/
def vformat : List Char → Option PfConv → List PfArg → Option (List Char)
  | [], none, _ => some []
  | [], some _, _ => none
  | ch :: rest, none, args =>
    if ch = '%' then vformat rest (some { left := false, zero := false, width := 0 }) args
    else (vformat rest none args).map (fun out => ch :: out)
  | ch :: rest, some cv, args =>
    if ch = '-' then vformat rest (some { cv with left := true }) args
    else if ch = '0' ∧ cv.width = 0 then vformat rest (some { cv with zero := true }) args
    else if ch.isDigit then
      vformat rest (some { cv with width := 10 * cv.width + (ch.toNat - 48) }) args
    else if ch = 'u' then
      match args with
      | PfArg.u n :: more =>
        (vformat rest none more).map (fun out => pfPad cv true (Nat.toDigits 10 n) ++ out)
      | _ => none
    else if ch = 'c' then
      match args with
      | PfArg.c x :: more => (vformat rest none more).map (fun out => pfPad cv false [x] ++ out)
      | _ => none
    else if ch = 's' ∨ ch = 'S' then
      match args with
      | PfArg.s x :: more => (vformat rest none more).map (fun out => pfPad cv false x ++ out)
      | _ => none
    else none

/-- The text `sprintf_P(Buffer, fmt, args...)` formats. -/
def sprintf_P (fmt : String) (args : List PfArg) : Option (List Char) :=
  vformat fmt.toList none args

/-! ## Constant data of `displpnl.cpp` -/

/-- Template of the line of a keypad event. -/
def _LINE_KEY : String := "%03u Key:%c%u/%02u Dx:%c%02u"

/-- Template of the line of an encoder event. -/
def _LINE_ENC : String := "%03u Enc:%c%u%-3s Dx:%c%02u"

/-- The separator glyph. -/
def _LCD_SEPARATOR_CHAR : Char := '|'

/-- Where to display separators, each entry in the format row, column. -/
def _FA18C_SEPARATORS : List (List Nat) :=
  [ [0, 12], [0, 14],
    [1, 5], [1, 14],
    [2, 5], [2, 14],
    [3, 2], [3, 17] ]

def FA18C_SCRPAD_STR1_COL : Nat := 0
def FA18C_SCRPAD_STR2_COL : Nat := 2
def FA18C_SCRPAD_NUMBER_COL : Nat := 4
def FA18C_SCRPAD_ROW : Nat := 0
def FA18C_OPTION_CUE_COL : List Nat := [19, 19, 19, 0, 0]
def FA18C_OPTION_STR_COL : List Nat := [15, 15, 15, 1, 1]
def FA18C_OPTION_ROW : List Nat := [0, 1, 2, 1, 2]
def FA18C_COM1_COL : Nat := 0
def FA18C_COM2_COL : Nat := 18
def FA18C_COM_ROW : Nat := 3

/-! ## The class -/

/-- The data members of `DisplPnl` next to the LCD: the LED pins and the
counter of diagnostic lines. -/
structure DisplPnl where
  _LedPin : List Nat
  _debugLine : Nat
  deriving DecidableEq

namespace DisplPnl

/-- `_setLed`: writes `Value` to the pin of `LedId`.  `none` for an index
outside `_LedPin`. -/
def _setLed (self : DisplPnl) (LedId Value : Nat) : Option (DisplPnl × List Call) :=
  (self._LedPin[LedId]?).map (fun pin => (self, [Call.digitalWrite pin Value]))

/-- `showMode`.  `Column` is a `uint8_t`; the difference is taken in `int`
after `strlen` is cast to `uint8_t`, and `/` rounds towards zero. -/
def showMode (h : Header) (self : DisplPnl) (pmMode : List Char) :
    Option (DisplPnl × List Call) :=
  (sprintf_P "* %S *" [PfArg.s pmMode]).map (fun Line =>
    let Column : Nat :=
      (Int.tdiv ((h.LCD_COLS : Int) - ((Line.length % 256 : Nat) : Int)) 2 % 256).toNat
    (self, [Call.clear, Call.setCursor Column 0, Call.print Line]))

/-- `a10cStart`: clears the display. -/
def a10cStart (self : DisplPnl) : DisplPnl × List Call :=
  (self, [Call.clear])

/-- `a10cScrpad`: the scratchpad, from the home position. -/
def a10cScrpad (self : DisplPnl) (szValue : List Char) : DisplPnl × List Call :=
  (self, [Call.home, Call.print szValue])

/-- `a10cMasterCaut`. -/
def a10cMasterCaut (h : Header) (self : DisplPnl) (Value : Nat) :
    Option (DisplPnl × List Call) :=
  self._setLed h.LedWrn Value

/-- One turn of the loop of `fa18cStart`: the cursor goes to element 1
(column) and element 0 (row) of entry `Idx`, then the separator is printed.
`none` for an index outside the table. -/
def fa18cStartBody (Separator : Char) (Idx : Nat) : Option (List Call) :=
  match _FA18C_SEPARATORS[Idx]? with
  | some entry =>
    match entry[1]?, entry[0]? with
    | some col, some row => some [Call.setCursor col row, Call.print [Separator]]
    | _, _ => none
  | none => none

/-- The loop of `fa18cStart`, `Idx` running up to `Max`; `todo` is
`Max - Idx`. -/
def fa18cStartLoop (Separator : Char) (Max : Nat) : Nat → Option (List Call)
  | 0 => some []
  | todo + 1 =>
    match fa18cStartBody Separator (Max - (todo + 1)), fa18cStartLoop Separator Max todo with
    | some calls, some more => some (calls ++ more)
    | _, _ => none

/-- `fa18cStart`: clears the display and prints the field separators. -/
def fa18cStart (self : DisplPnl) : Option (DisplPnl × List Call) :=
  let Max := _FA18C_SEPARATORS.length
  let Separator := _LCD_SEPARATOR_CHAR
  (fa18cStartLoop Separator Max Max).map (fun calls => (self, Call.clear :: calls))

/-- `fa18cScrpadStr1`. -/
def fa18cScrpadStr1 (self : DisplPnl) (szValue : List Char) : DisplPnl × List Call :=
  (self, [Call.setCursor FA18C_SCRPAD_STR1_COL FA18C_SCRPAD_ROW, Call.print szValue])

/-- `fa18cScrpadStr2`. -/
def fa18cScrpadStr2 (self : DisplPnl) (szValue : List Char) : DisplPnl × List Call :=
  (self, [Call.setCursor FA18C_SCRPAD_STR2_COL FA18C_SCRPAD_ROW, Call.print szValue])

/-- `fa18cScrpadNumber`. -/
def fa18cScrpadNumber (self : DisplPnl) (szValue : List Char) : DisplPnl × List Call :=
  (self, [Call.setCursor FA18C_SCRPAD_NUMBER_COL FA18C_SCRPAD_ROW, Call.print szValue])

/-- `fa18cOptionCue`.  `none` for an `Id` outside the tables. -/
def fa18cOptionCue (self : DisplPnl) (Id : Nat) (szValue : List Char) :
    Option (DisplPnl × List Call) :=
  match FA18C_OPTION_CUE_COL[Id]?, FA18C_OPTION_ROW[Id]? with
  | some col, some row => some (self, [Call.setCursor col row, Call.print szValue])
  | _, _ => none

/-- `fa18cOptionStr`.  `none` for an `Id` outside the tables. -/
def fa18cOptionStr (self : DisplPnl) (Id : Nat) (szValue : List Char) :
    Option (DisplPnl × List Call) :=
  match FA18C_OPTION_STR_COL[Id]?, FA18C_OPTION_ROW[Id]? with
  | some col, some row => some (self, [Call.setCursor col row, Call.print szValue])
  | _, _ => none

/-- `fa18cCom1`. -/
def fa18cCom1 (self : DisplPnl) (szValue : List Char) : DisplPnl × List Call :=
  (self, [Call.setCursor FA18C_COM1_COL FA18C_COM_ROW, Call.print szValue])

/-- `fa18cCom2`. -/
def fa18cCom2 (self : DisplPnl) (szValue : List Char) : DisplPnl × List Call :=
  (self, [Call.setCursor FA18C_COM2_COL FA18C_COM_ROW, Call.print szValue])

/-- `fa18cMasterCaut`. -/
def fa18cMasterCaut (h : Header) (self : DisplPnl) (Value : Nat) :
    Option (DisplPnl × List Call) :=
  self._setLed h.LedWrn Value

/-- `fa18cApuReady`. -/
def fa18cApuReady (h : Header) (self : DisplPnl) (Value : Nat) :
    Option (DisplPnl × List Call) :=
  self._setLed h.LedClr Value

/-- `debugStart`: clears the display and resets the line counter. -/
def debugStart (self : DisplPnl) : DisplPnl × List Call :=
  ({ self with _debugLine := 0 }, [Call.clear])

/-- `debugShowEvent`: formats the line of the event into `Buffer`, prints it
on row `_debugLine % LCD_ROWS` and counts it.

* The line is the text `sprintf_P` formats, whatever its length: `Buffer`
  holds `LCD_COLS` characters and the terminator, and what a longer text
  overruns is outside the model.
* `none` where the C code has no line to print or no row to print it on:
  `EvNone` (no case of the `switch` fills `Buffer`) and a display without
  rows (`%` by zero).
* `_debugLine++` wraps at the width of the member. -/
def debugShowEvent (h : Header) (self : DisplPnl) (Ev : Event) (Dx : Directx.Event_t) :
    Option (DisplPnl × List Call) :=
  let PRESS := 'P'
  let RELEASE := 'R'
  let CCW := "CCW".toList
  let CW := "CW".toList
  let dx := if Dx.Action = Directx.Action.AcRelease then RELEASE else PRESS
  let Buffer : Option (List Char) :=
    match Ev.Id with
    | EventId.EvKpPress =>
      sprintf_P _LINE_KEY [PfArg.u self._debugLine, PfArg.c PRESS, PfArg.u Ev.Kp.KpId,
        PfArg.u Ev.Kp.KeyId, PfArg.c dx, PfArg.u Dx.Button]
    | EventId.EvKpRelease =>
      sprintf_P _LINE_KEY [PfArg.u self._debugLine, PfArg.c RELEASE, PfArg.u Ev.Kp.KpId,
        PfArg.u Ev.Kp.KeyId, PfArg.c dx, PfArg.u Dx.Button]
    | EventId.EvEncCcwPress =>
      sprintf_P _LINE_ENC [PfArg.u self._debugLine, PfArg.c PRESS, PfArg.u Ev.EncId,
        PfArg.s CCW, PfArg.c dx, PfArg.u Dx.Button]
    | EventId.EvEncCcwRelease =>
      sprintf_P _LINE_ENC [PfArg.u self._debugLine, PfArg.c RELEASE, PfArg.u Ev.EncId,
        PfArg.s CCW, PfArg.c dx, PfArg.u Dx.Button]
    | EventId.EvEncCwPress =>
      sprintf_P _LINE_ENC [PfArg.u self._debugLine, PfArg.c PRESS, PfArg.u Ev.EncId,
        PfArg.s CW, PfArg.c dx, PfArg.u Dx.Button]
    | EventId.EvEncCwRelease =>
      sprintf_P _LINE_ENC [PfArg.u self._debugLine, PfArg.c RELEASE, PfArg.u Ev.EncId,
        PfArg.s CW, PfArg.c dx, PfArg.u Dx.Button]
    | EventId.EvNone => none
  match Buffer with
  | none => none
  | some line =>
    if h.LCD_ROWS = 0 then none
    else
      some ({ self with _debugLine := (self._debugLine + 1) % 2 ^ h.debugLineBits },
        [Call.setCursor 0 (self._debugLine % h.LCD_ROWS), Call.print line])

/-- A caller of `debugShowEvent`: one call per event of the list, in order.
Returns the controller after the last call and, call by call, the calls made
on the display. -/
def debugShowEvents (h : Header) (self : DisplPnl) :
    List (Event × Directx.Event_t) → Option (DisplPnl × List (List Call))
  | [] => some (self, [])
  | (Ev, Dx) :: more =>
    match self.debugShowEvent h Ev Dx with
    | none => none
    | some (next, calls) =>
      match debugShowEvents h next more with
      | none => none
      | some (last, rest) => some (last, calls :: rest)

end DisplPnl

/-! ## The vocabulary of the specification -/

/-- The number `n` in decimal. -/
def decimal (n : Nat) : List Char := Nat.toDigits 10 n

/-- The number `n` in decimal, zero-padded to `width` digits. -/
def zeroPadded (width n : Nat) : List Char := List.leftpad width '0' (decimal n)

/-- The letter of a press (`true`) or of a release. -/
def pressLetter (press : Bool) : Char := if press then 'P' else 'R'

/-- The letter of the mapped action: `R` for a release, else `P`. -/
def dxLetter (Dx : Directx.Event_t) : Char :=
  if Dx.Action = Directx.Action.AcRelease then 'R' else 'P'

/-- The template of a keypad line as the specification writes it: the
counter on 3 digits, " Key:", the letter of the input event, the keypad, "/",
the key on 2 digits, " Dx:", the letter of the mapped action, the button on 2
digits. -/
def keyLine (counter : Nat) (press : Bool) (kp key : Nat) (Dx : Directx.Event_t) : List Char :=
  zeroPadded 3 counter ++ " Key:".toList ++ [pressLetter press] ++ decimal kp ++ "/".toList
    ++ zeroPadded 2 key ++ " Dx:".toList ++ [dxLetter Dx] ++ zeroPadded 2 Dx.Button

/-- The template of an encoder line as the specification writes it: the
counter on 3 digits, " Enc:", the letter of the input event, the encoder, the
direction text, " Dx:", the letter of the mapped action, the button on 2
digits. -/
def encLine (counter : Nat) (press : Bool) (enc : Nat) (direction : List Char)
    (Dx : Directx.Event_t) : List Char :=
  zeroPadded 3 counter ++ " Enc:".toList ++ [pressLetter press] ++ decimal enc ++ direction
    ++ " Dx:".toList ++ [dxLetter Dx] ++ zeroPadded 2 Dx.Button

/-- The line of a valid event with the counter at `counter`: the keypad
template for the two keypad tags, the encoder template for the four encoder
tags, with the direction text "CCW", or "CW" and a blank. -/
def diagLine (counter : Nat) (Ev : Event) (Dx : Directx.Event_t) : List Char :=
  match Ev.Id with
  | EventId.EvKpPress => keyLine counter true Ev.Kp.KpId Ev.Kp.KeyId Dx
  | EventId.EvKpRelease => keyLine counter false Ev.Kp.KpId Ev.Kp.KeyId Dx
  | EventId.EvEncCcwPress => encLine counter true Ev.EncId "CCW".toList Dx
  | EventId.EvEncCcwRelease => encLine counter false Ev.EncId "CCW".toList Dx
  | EventId.EvEncCwPress => encLine counter true Ev.EncId "CW ".toList Dx
  | EventId.EvEncCwRelease => encLine counter false Ev.EncId "CW ".toList Dx
  | EventId.EvNone => []

/-- The character that follows the first occurrence of `pat` in a line. -/
def charAfter (pat : List Char) : List Char → Option Char
  | [] => none
  | a :: rest =>
    if pat.isPrefixOf (a :: rest) then ((a :: rest).drop pat.length).head?
    else charAfter pat rest

/-- Reads a run of decimal digits after the value `acc`, up to the first
character that is not a digit. -/
def leadingNatFrom (acc : Nat) : List Char → Nat
  | [] => acc
  | ch :: rest => if ch.isDigit then leadingNatFrom (10 * acc + (ch.toNat - 48)) rest else acc

/-- The number a line starts with. -/
def leadingNat (line : List Char) : Nat := leadingNatFrom 0 line

/-- The calls of a method that returned. -/
def callsOf (r : Option (DisplPnl × List Call)) : Option (List Call) := r.map Prod.snd

/-- The controller a method leaves when it returned. -/
def stateOf (r : Option (DisplPnl × List Call)) : Option DisplPnl := r.map Prod.fst

/-- The cursor positions (column, row) a list of calls moves to, in order. -/
def cursorsOf : List Call → List (Nat × Nat)
  | [] => []
  | Call.setCursor col row :: rest => (col, row) :: cursorsOf rest
  | _ :: rest => cursorsOf rest

/-- The calls of a method that returned, none for one that did not. -/
def callsOrNone (r : Option (DisplPnl × List Call)) : List Call := (callsOf r).getD []

/-- The anchors of the 15 F/A-18C fields as the field updates use them: the
cursor positions of the calls of scratchpad string 1, string 2 and number, of
option cues 0..4, of option strings 0..4, of COMM1 and of COMM2, each update
made with the text `t`. -/
def fa18cFieldCursors (p : DisplPnl) (t : List Char) : List (Nat × Nat) :=
  cursorsOf ((p.fa18cScrpadStr1 t).2 ++ (p.fa18cScrpadStr2 t).2 ++ (p.fa18cScrpadNumber t).2
    ++ callsOrNone (p.fa18cOptionCue 0 t) ++ callsOrNone (p.fa18cOptionCue 1 t)
    ++ callsOrNone (p.fa18cOptionCue 2 t) ++ callsOrNone (p.fa18cOptionCue 3 t)
    ++ callsOrNone (p.fa18cOptionCue 4 t)
    ++ callsOrNone (p.fa18cOptionStr 0 t) ++ callsOrNone (p.fa18cOptionStr 1 t)
    ++ callsOrNone (p.fa18cOptionStr 2 t) ++ callsOrNone (p.fa18cOptionStr 3 t)
    ++ callsOrNone (p.fa18cOptionStr 4 t)
    ++ (p.fa18cCom1 t).2 ++ (p.fa18cCom2 t).2)

/-- The positions (column, row) `fa18cStart` draws a separator at. -/
def fa18cSeparatorCursors (p : DisplPnl) : List (Nat × Nat) :=
  cursorsOf (callsOrNone p.fa18cStart)

/-- Two calls in a row of a method that always returns: the controller after
the second call, the calls of the first and the calls of the second. -/
def twice (f : DisplPnl → DisplPnl × List Call) (p : DisplPnl) :
    DisplPnl × List Call × List Call :=
  ((f (f p).1).1, (f p).2, (f (f p).1).2)

/-- Two calls in a row of a method that may not return. -/
def twiceOpt (f : DisplPnl → Option (DisplPnl × List Call)) (p : DisplPnl) :
    Option (DisplPnl × List Call × List Call) :=
  match f p with
  | none => none
  | some (p1, calls1) =>
    match f p1 with
    | none => none
    | some (p2, calls2) => some (p2, calls1, calls2)

/-- A text and its terminator fit `char Buffer[LCD_COLS+1]`. -/
def fitsBuffer (h : Header) (text : List Char) : Prop := text.length + 1 ≤ h.LCD_COLS + 1

instance (h : Header) (text : List Char) : Decidable (fitsBuffer h text) :=
  inferInstanceAs (Decidable (text.length + 1 ≤ h.LCD_COLS + 1))

/-! ## Field updates and mode start of the F/A-18C -/

/-- C1: every F/A-18C field update moves the cursor to the anchor of its field
(column, row) and prints the supplied text, makes no other call and leaves the
controller as it was: scratchpad string 1 at (0,0), string 2 at (2,0), number
at (4,0); option cues 0..4 at (19,0), (19,1), (19,2), (0,1), (0,2); option
strings 0..4 at (15,0), (15,1), (15,2), (1,1), (1,2); COMM1 at (0,3); COMM2 at
(18,3). -/
theorem fa18c_field_update_calls (p : DisplPnl) (t : List Char) :
    p.fa18cScrpadStr1 t = (p, [Call.setCursor 0 0, Call.print t]) ∧
    p.fa18cScrpadStr2 t = (p, [Call.setCursor 2 0, Call.print t]) ∧
    p.fa18cScrpadNumber t = (p, [Call.setCursor 4 0, Call.print t]) ∧
    p.fa18cOptionCue 0 t = some (p, [Call.setCursor 19 0, Call.print t]) ∧
    p.fa18cOptionCue 1 t = some (p, [Call.setCursor 19 1, Call.print t]) ∧
    p.fa18cOptionCue 2 t = some (p, [Call.setCursor 19 2, Call.print t]) ∧
    p.fa18cOptionCue 3 t = some (p, [Call.setCursor 0 1, Call.print t]) ∧
    p.fa18cOptionCue 4 t = some (p, [Call.setCursor 0 2, Call.print t]) ∧
    p.fa18cOptionStr 0 t = some (p, [Call.setCursor 15 0, Call.print t]) ∧
    p.fa18cOptionStr 1 t = some (p, [Call.setCursor 15 1, Call.print t]) ∧
    p.fa18cOptionStr 2 t = some (p, [Call.setCursor 15 2, Call.print t]) ∧
    p.fa18cOptionStr 3 t = some (p, [Call.setCursor 1 1, Call.print t]) ∧
    p.fa18cOptionStr 4 t = some (p, [Call.setCursor 1 2, Call.print t]) ∧
    p.fa18cCom1 t = (p, [Call.setCursor 0 3, Call.print t]) ∧
    p.fa18cCom2 t = (p, [Call.setCursor 18 3, Call.print t]) := by
  refine ⟨rfl, rfl, rfl, rfl, rfl, rfl, rfl, rfl, rfl, rfl, rfl, rfl, rfl, rfl, rfl⟩

/-- C2: `fa18cStart` clears the display once, then for each of the 8 entries
of the separator table, in table order, sets the cursor to the entry read as
row, column (passed as column, row) and prints the separator `|`; it makes no
other call. -/
theorem fa18cStart_calls (p : DisplPnl) :
    p.fa18cStart = some (p,
      [Call.clear,
       Call.setCursor 12 0, Call.print ['|'],
       Call.setCursor 14 0, Call.print ['|'],
       Call.setCursor 5 1, Call.print ['|'],
       Call.setCursor 14 1, Call.print ['|'],
       Call.setCursor 5 2, Call.print ['|'],
       Call.setCursor 14 2, Call.print ['|'],
       Call.setCursor 2 3, Call.print ['|'],
       Call.setCursor 17 3, Call.print ['|']]) := by
  rfl

/-! ## The diagnostic line -/

/-- What `sprintf_P` makes of `_LINE_KEY`. -/
theorem sprintf_LINE_KEY (c kp key b : Nat) (x y : Char) :
    sprintf_P _LINE_KEY
        [PfArg.u c, PfArg.c x, PfArg.u kp, PfArg.u key, PfArg.c y, PfArg.u b]
      = some (zeroPadded 3 c ++ " Key:".toList ++ [x] ++ decimal kp ++ "/".toList
          ++ zeroPadded 2 key ++ " Dx:".toList ++ [y] ++ zeroPadded 2 b) := by
  simp [sprintf_P, _LINE_KEY, vformat, pfPad, zeroPadded, decimal, List.leftpad]

/-- What `sprintf_P` makes of `_LINE_ENC`: the direction text is left-justified
in a field of 3 characters. -/
theorem sprintf_LINE_ENC (c e b : Nat) (x y : Char) (dir : List Char) :
    sprintf_P _LINE_ENC
        [PfArg.u c, PfArg.c x, PfArg.u e, PfArg.s dir, PfArg.c y, PfArg.u b]
      = some (zeroPadded 3 c ++ " Enc:".toList ++ [x] ++ decimal e
          ++ (dir ++ List.replicate (3 - dir.length) ' ') ++ " Dx:".toList ++ [y]
          ++ zeroPadded 2 b) := by
  simp [sprintf_P, _LINE_ENC, vformat, pfPad, zeroPadded, decimal, List.leftpad]

/-- The call on a key press, in full. -/
theorem debugShowEvent_kpPress (h : Header) (hrows : 0 < h.LCD_ROWS) (p : DisplPnl)
    (kp key e : Nat) (Dx : Directx.Event_t) :
    p.debugShowEvent h ⟨EventId.EvKpPress, ⟨kp, key⟩, e⟩ Dx
      = some ({ p with _debugLine := (p._debugLine + 1) % 2 ^ h.debugLineBits },
          [Call.setCursor 0 (p._debugLine % h.LCD_ROWS),
           Call.print (keyLine p._debugLine true kp key Dx)]) := by
  have hne : h.LCD_ROWS ≠ 0 := Nat.pos_iff_ne_zero.mp hrows
  simp only [DisplPnl.debugShowEvent, sprintf_LINE_KEY, keyLine, pressLetter, dxLetter]
  simp [hne]

/-- The call on a key release, in full. -/
theorem debugShowEvent_kpRelease (h : Header) (hrows : 0 < h.LCD_ROWS) (p : DisplPnl)
    (kp key e : Nat) (Dx : Directx.Event_t) :
    p.debugShowEvent h ⟨EventId.EvKpRelease, ⟨kp, key⟩, e⟩ Dx
      = some ({ p with _debugLine := (p._debugLine + 1) % 2 ^ h.debugLineBits },
          [Call.setCursor 0 (p._debugLine % h.LCD_ROWS),
           Call.print (keyLine p._debugLine false kp key Dx)]) := by
  have hne : h.LCD_ROWS ≠ 0 := Nat.pos_iff_ne_zero.mp hrows
  simp only [DisplPnl.debugShowEvent, sprintf_LINE_KEY, keyLine, pressLetter, dxLetter]
  simp [hne]

/-- The call on a counterclockwise press, in full. -/
theorem debugShowEvent_ccwPress (h : Header) (hrows : 0 < h.LCD_ROWS) (p : DisplPnl)
    (k : KpEvent) (e : Nat) (Dx : Directx.Event_t) :
    p.debugShowEvent h ⟨EventId.EvEncCcwPress, k, e⟩ Dx
      = some ({ p with _debugLine := (p._debugLine + 1) % 2 ^ h.debugLineBits },
          [Call.setCursor 0 (p._debugLine % h.LCD_ROWS),
           Call.print (encLine p._debugLine true e "CCW".toList Dx)]) := by
  have hne : h.LCD_ROWS ≠ 0 := Nat.pos_iff_ne_zero.mp hrows
  simp only [DisplPnl.debugShowEvent, sprintf_LINE_ENC, encLine, pressLetter, dxLetter]
  simp [hne]

/-- The call on a counterclockwise release, in full. -/
theorem debugShowEvent_ccwRelease (h : Header) (hrows : 0 < h.LCD_ROWS) (p : DisplPnl)
    (k : KpEvent) (e : Nat) (Dx : Directx.Event_t) :
    p.debugShowEvent h ⟨EventId.EvEncCcwRelease, k, e⟩ Dx
      = some ({ p with _debugLine := (p._debugLine + 1) % 2 ^ h.debugLineBits },
          [Call.setCursor 0 (p._debugLine % h.LCD_ROWS),
           Call.print (encLine p._debugLine false e "CCW".toList Dx)]) := by
  have hne : h.LCD_ROWS ≠ 0 := Nat.pos_iff_ne_zero.mp hrows
  simp only [DisplPnl.debugShowEvent, sprintf_LINE_ENC, encLine, pressLetter, dxLetter]
  simp [hne]

/-- The call on a clockwise press, in full: the direction is "CW" and a
blank. -/
theorem debugShowEvent_cwPress (h : Header) (hrows : 0 < h.LCD_ROWS) (p : DisplPnl)
    (k : KpEvent) (e : Nat) (Dx : Directx.Event_t) :
    p.debugShowEvent h ⟨EventId.EvEncCwPress, k, e⟩ Dx
      = some ({ p with _debugLine := (p._debugLine + 1) % 2 ^ h.debugLineBits },
          [Call.setCursor 0 (p._debugLine % h.LCD_ROWS),
           Call.print (encLine p._debugLine true e "CW ".toList Dx)]) := by
  have hne : h.LCD_ROWS ≠ 0 := Nat.pos_iff_ne_zero.mp hrows
  simp only [DisplPnl.debugShowEvent, sprintf_LINE_ENC, encLine, pressLetter, dxLetter]
  simp [hne]

/-- The call on a clockwise release, in full: the direction is "CW" and a
blank. -/
theorem debugShowEvent_cwRelease (h : Header) (hrows : 0 < h.LCD_ROWS) (p : DisplPnl)
    (k : KpEvent) (e : Nat) (Dx : Directx.Event_t) :
    p.debugShowEvent h ⟨EventId.EvEncCwRelease, k, e⟩ Dx
      = some ({ p with _debugLine := (p._debugLine + 1) % 2 ^ h.debugLineBits },
          [Call.setCursor 0 (p._debugLine % h.LCD_ROWS),
           Call.print (encLine p._debugLine false e "CW ".toList Dx)]) := by
  have hne : h.LCD_ROWS ≠ 0 := Nat.pos_iff_ne_zero.mp hrows
  simp only [DisplPnl.debugShowEvent, sprintf_LINE_ENC, encLine, pressLetter, dxLetter]
  simp [hne]

/-- The call on any valid event, in full. -/
theorem debugShowEvent_valid (h : Header) (hrows : 0 < h.LCD_ROWS) (p : DisplPnl)
    (Ev : Event) (hEv : Ev.Id ≠ EventId.EvNone) (Dx : Directx.Event_t) :
    p.debugShowEvent h Ev Dx
      = some ({ p with _debugLine := (p._debugLine + 1) % 2 ^ h.debugLineBits },
          [Call.setCursor 0 (p._debugLine % h.LCD_ROWS),
           Call.print (diagLine p._debugLine Ev Dx)]) := by
  obtain ⟨id, k, e⟩ := Ev
  obtain ⟨kp, key⟩ := k
  cases id
  · exact absurd rfl hEv
  · exact debugShowEvent_kpPress h hrows p kp key e Dx
  · exact debugShowEvent_kpRelease h hrows p kp key e Dx
  · exact debugShowEvent_ccwPress h hrows p ⟨kp, key⟩ e Dx
  · exact debugShowEvent_ccwRelease h hrows p ⟨kp, key⟩ e Dx
  · exact debugShowEvent_cwPress h hrows p ⟨kp, key⟩ e Dx
  · exact debugShowEvent_cwRelease h hrows p ⟨kp, key⟩ e Dx

/-- Every line starts with the counter on 3 digits and a blank. -/
theorem diagLine_ordinal (c : Nat) (Ev : Event) (hEv : Ev.Id ≠ EventId.EvNone)
    (Dx : Directx.Event_t) : ∃ rest, diagLine c Ev Dx = zeroPadded 3 c ++ ' ' :: rest := by
  obtain ⟨id, k, e⟩ := Ev
  cases id
  · exact absurd rfl hEv
  all_goals
    simp only [diagLine, keyLine, encLine, List.append_assoc]
    exact ⟨_, rfl⟩

/-- A run of calls from a counter in range: call `k` works with the counter
`(c + k) % 2 ^ debugLineBits`. -/
theorem debugShowEvents_nth (h : Header) (hrows : 0 < h.LCD_ROWS) :
    ∀ (evs : List (Event × Directx.Event_t)) (p : DisplPnl),
      p._debugLine < 2 ^ h.debugLineBits →
      (∀ ed ∈ evs, ed.1.Id ≠ EventId.EvNone) →
      ∃ outs, DisplPnl.debugShowEvents h p evs
          = some ({ p with _debugLine := (p._debugLine + evs.length) % 2 ^ h.debugLineBits },
              outs) ∧
        outs.length = evs.length ∧
        ∀ k Ev Dx, evs[k]? = some (Ev, Dx) →
          outs[k]? = some
            [Call.setCursor 0 ((p._debugLine + k) % 2 ^ h.debugLineBits % h.LCD_ROWS),
             Call.print (diagLine ((p._debugLine + k) % 2 ^ h.debugLineBits) Ev Dx)] := by
  intro evs
  induction evs with
  | nil =>
    intro p hc _
    exact ⟨[], by simp [DisplPnl.debugShowEvents, Nat.mod_eq_of_lt hc]⟩
  | cons ed more ih =>
    intro p hc hv
    obtain ⟨Ev, Dx⟩ := ed
    have hEv : Ev.Id ≠ EventId.EvNone := hv (Ev, Dx) (List.mem_cons_self _ _)
    have hpos : 0 < 2 ^ h.debugLineBits := Nat.pow_pos (by decide)
    obtain ⟨outs, hrun, hlen, hnth⟩ :=
      ih { p with _debugLine := (p._debugLine + 1) % 2 ^ h.debugLineBits }
        (Nat.mod_lt _ hpos) (fun ed hed => hv ed (List.mem_cons_of_mem _ hed))
    have hstep : ∀ j, ((p._debugLine + 1) % 2 ^ h.debugLineBits + j) % 2 ^ h.debugLineBits
        = (p._debugLine + (j + 1)) % 2 ^ h.debugLineBits := by
      intro j
      rw [Nat.mod_add_mod, Nat.add_assoc, Nat.add_comm 1 j]
    simp only [hstep] at hrun hnth
    refine ⟨[Call.setCursor 0 (p._debugLine % h.LCD_ROWS),
        Call.print (diagLine p._debugLine Ev Dx)] :: outs, ?_, by simp [hlen], ?_⟩
    · rw [DisplPnl.debugShowEvents, debugShowEvent_valid h hrows p Ev hEv Dx]
      simp only [hrun, List.length_cons]
    · intro k Ev1 Dx1 hk
      cases k with
      | zero =>
        simp only [List.getElem?_cons_zero, Option.some.injEq, Prod.mk.injEq] at hk
        obtain ⟨rfl, rfl⟩ := hk
        simp [Nat.mod_eq_of_lt hc]
      | succ j =>
        simp only [List.getElem?_cons_succ] at hk ⊢
        exact hnth j Ev1 Dx1 hk

/-! ### Decimal digits -/

theorem digitChar_isDigit (m : Nat) (hm : m < 10) : (Nat.digitChar m).isDigit = true := by
  interval_cases m <;> decide

theorem digitChar_value (m : Nat) (hm : m < 10) : (Nat.digitChar m).toNat - 48 = m := by
  interval_cases m <;> decide

theorem toDigitsCore_isDigit (fuel : Nat) : ∀ (n : Nat) (ds : List Char),
    (∀ x ∈ ds, x.isDigit = true) → ∀ x ∈ Nat.toDigitsCore 10 fuel n ds, x.isDigit = true := by
  induction fuel with
  | zero => intro n ds hds x hx; exact hds x (by simpa [Nat.toDigitsCore] using hx)
  | succ f ih =>
    intro n ds hds x hx
    have hd : ∀ y ∈ Nat.digitChar (n % 10) :: ds, y.isDigit = true := by
      intro y hy
      rcases List.mem_cons.mp hy with rfl | hy
      · exact digitChar_isDigit _ (Nat.mod_lt _ (by decide))
      · exact hds y hy
    unfold Nat.toDigitsCore at hx
    by_cases hz : n / 10 = 0
    · simp only [hz, if_true] at hx
      exact hd x hx
    · simp only [hz, if_false] at hx
      exact ih _ _ hd x hx

theorem decimal_isDigit (n : Nat) : ∀ x ∈ decimal n, x.isDigit = true :=
  toDigitsCore_isDigit _ n [] (by simp)

theorem zeroPadded_isDigit (w n : Nat) : ∀ x ∈ zeroPadded w n, x.isDigit = true := by
  intro x hx
  simp only [zeroPadded, List.leftpad, List.mem_append, List.mem_replicate] at hx
  rcases hx with ⟨_, rfl⟩ | hx
  · decide
  · exact decimal_isDigit n x hx

theorem toDigitsCore_append (fuel : Nat) : ∀ (n : Nat) (ds l : List Char),
    Nat.toDigitsCore 10 fuel n ds ++ l = Nat.toDigitsCore 10 fuel n (ds ++ l) := by
  induction fuel with
  | zero => intro n ds l; rfl
  | succ f ih =>
    intro n ds l
    unfold Nat.toDigitsCore
    by_cases hz : n / 10 = 0
    · simp only [hz, if_true, List.cons_append]
    · simp only [hz, if_false, ih, List.cons_append]

theorem leadingNatFrom_digits (fuel : Nat) : ∀ (n : Nat) (ds : List Char),
    n < fuel →
    leadingNatFrom 0 (Nat.toDigitsCore 10 fuel n ds) = leadingNatFrom n ds := by
  induction fuel with
  | zero => intro n ds hn; omega
  | succ f ih =>
    intro n ds hn
    have hd := digitChar_isDigit (n % 10) (Nat.mod_lt _ (by decide))
    have hv := digitChar_value (n % 10) (Nat.mod_lt _ (by decide))
    unfold Nat.toDigitsCore
    by_cases hz : n / 10 = 0
    · simp only [hz, if_true, leadingNatFrom, hd, hv]
      congr 1
      omega
    · simp only [hz, if_false]
      rw [ih (n / 10) _ (by omega)]
      simp only [leadingNatFrom, hd, if_true, hv]
      congr 1
      omega

theorem leadingNatFrom_zeros (k : Nat) (l : List Char) :
    leadingNatFrom 0 (List.replicate k '0' ++ l) = leadingNatFrom 0 l := by
  induction k with
  | zero => rfl
  | succ k ih =>
    rw [List.replicate_succ, List.cons_append, leadingNatFrom]
    simpa using ih

/-- Reading back a zero-padded number followed by a blank gives the number. -/
theorem leadingNat_zeroPadded (w n : Nat) (rest : List Char) :
    leadingNat (zeroPadded w n ++ ' ' :: rest) = n := by
  unfold leadingNat zeroPadded List.leftpad decimal Nat.toDigits
  rw [List.append_assoc, leadingNatFrom_zeros, toDigitsCore_append,
    leadingNatFrom_digits (n + 1) n _ (Nat.lt_succ_self n)]
  rfl

/-- Two lines with the same text start with the same number. -/
theorem zeroPadded_inj (w a b : Nat) (r s : List Char)
    (h : zeroPadded w a ++ ' ' :: r = zeroPadded w b ++ ' ' :: s) : a = b := by
  have := congrArg leadingNat h
  rwa [leadingNat_zeroPadded, leadingNat_zeroPadded] at this

/-- The character after "Dx:" when no `D` comes before it. -/
theorem charAfter_Dx (pre post : List Char) (c : Char) (hpre : ∀ x ∈ pre, x ≠ 'D') :
    charAfter "Dx:".toList (pre ++ 'D' :: 'x' :: ':' :: c :: post) = some c := by
  induction pre with
  | nil => simp [charAfter, List.isPrefixOf]
  | cons a pre ih =>
    have ha : a ≠ 'D' := hpre a (List.mem_cons_self _ _)
    have : ("Dx:".toList).isPrefixOf (a :: (pre ++ 'D' :: 'x' :: ':' :: c :: post)) = false := by
      simp [List.isPrefixOf, Ne.symm ha]
    rw [List.cons_append, charAfter, this]
    exact ih (fun x hx => hpre x (List.mem_cons_of_mem _ hx))

/-- A decimal digit is not the letter `D`. -/
theorem isDigit_ne_D (x : Char) (hx : x.isDigit = true) : x ≠ 'D' := by
  rintro rfl
  exact absurd hx (by decide)

theorem sprintf_mode (name : List Char) :
    sprintf_P "* %S *" [PfArg.s name] = some ("* ".toList ++ name ++ " *".toList) := by
  simp [sprintf_P, vformat, pfPad]

theorem showMode_column (W len : Nat) (hW : W < 256) (hlen : len ≤ W) :
    (Int.tdiv ((W : Int) - ((len % 256 : Nat) : Int)) 2 % 256).toNat = (W - len) / 2 := by
  have h1 : len % 256 = len := Nat.mod_eq_of_lt (by omega)
  rw [h1, Int.tdiv_eq_ediv (by omega) (by decide)]
  omega

theorem showMode_fits (h : Header) (hcols : h.LCD_COLS < 256) (p : DisplPnl)
    (name : List Char) (hfit : name.length + 4 ≤ h.LCD_COLS) :
    p.showMode h name
      = some (p, [Call.clear, Call.setCursor ((h.LCD_COLS - (name.length + 4)) / 2) 0,
          Call.print ("* ".toList ++ name ++ " *".toList)]) := by
  have hl : ("* ".toList ++ name ++ " *".toList).length = name.length + 4 := by
    simp
  simp only [DisplPnl.showMode, sprintf_mode, Option.map_some', hl,
    showMode_column h.LCD_COLS (name.length + 4) hcols hfit]

theorem charAfter_keyLine (c : Nat) (press : Bool) (kp key : Nat) (Dx : Directx.Event_t) :
    charAfter "Dx:".toList (keyLine c press kp key Dx) = some (dxLetter Dx) := by
  have hs : keyLine c press kp key Dx
      = (zeroPadded 3 c ++ " Key:".toList ++ [pressLetter press] ++ decimal kp ++ "/".toList
          ++ zeroPadded 2 key ++ [' '])
        ++ 'D' :: 'x' :: ':' :: dxLetter Dx :: zeroPadded 2 Dx.Button := by
    simp [keyLine]
  rw [hs]
  apply charAfter_Dx
  intro x hx
  simp only [List.mem_append, List.mem_singleton] at hx
  rcases hx with (((((hx | hx) | hx) | hx) | hx) | hx) | hx
  · exact isDigit_ne_D x (zeroPadded_isDigit 3 c x hx)
  · revert hx; simp; rintro (rfl | rfl | rfl | rfl | rfl) <;> decide
  · subst hx; cases press <;> decide
  · exact isDigit_ne_D x (decimal_isDigit kp x hx)
  · revert hx; simp; rintro rfl; decide
  · exact isDigit_ne_D x (zeroPadded_isDigit 2 key x hx)
  · subst hx; decide

theorem charAfter_encLine (c : Nat) (press : Bool) (e : Nat) (dir : List Char)
    (hdir : ∀ x ∈ dir, x ≠ 'D') (Dx : Directx.Event_t) :
    charAfter "Dx:".toList (encLine c press e dir Dx) = some (dxLetter Dx) := by
  have hs : encLine c press e dir Dx
      = (zeroPadded 3 c ++ " Enc:".toList ++ [pressLetter press] ++ decimal e ++ dir ++ [' '])
        ++ 'D' :: 'x' :: ':' :: dxLetter Dx :: zeroPadded 2 Dx.Button := by
    simp [encLine]
  rw [hs]
  apply charAfter_Dx
  intro x hx
  simp only [List.mem_append, List.mem_singleton] at hx
  rcases hx with ((((hx | hx) | hx) | hx) | hx) | hx
  · exact isDigit_ne_D x (zeroPadded_isDigit 3 c x hx)
  · revert hx; simp; rintro (rfl | rfl | rfl | rfl | rfl) <;> decide
  · subst hx; cases press <;> decide
  · exact isDigit_ne_D x (decimal_isDigit e x hx)
  · exact hdir x hx
  · subst hx; decide

theorem charAfter_diagLine (c : Nat) (Ev : Event) (hEv : Ev.Id ≠ EventId.EvNone)
    (Dx : Directx.Event_t) :
    charAfter "Dx:".toList (diagLine c Ev Dx) = some (dxLetter Dx) := by
  obtain ⟨id, k, e⟩ := Ev
  cases id
  · exact absurd rfl hEv
  · exact charAfter_keyLine _ _ _ _ _
  · exact charAfter_keyLine _ _ _ _ _
  · exact charAfter_encLine _ _ _ _ (by decide) _
  · exact charAfter_encLine _ _ _ _ (by decide) _
  · exact charAfter_encLine _ _ _ _ (by decide) _
  · exact charAfter_encLine _ _ _ _ (by decide) _


/-- C3: on a key press or release of key `key` of keypad `kp`, with the counter
at `c`, `debugShowEvent` prints exactly: `c` zero-padded to 3 digits, " Key:",
`P` for a press and `R` for a release, `kp` in decimal, "/", `key` zero-padded
to 2 digits, " Dx:", `R` if the mapped action is the release and `P` if not,
the button zero-padded to 2 digits. -/
theorem debugShowEvent_key_line (h : Header) (hrows : 0 < h.LCD_ROWS) (p : DisplPnl)
    (kp key e : Nat) (Dx : Directx.Event_t) :
    callsOf (p.debugShowEvent h ⟨EventId.EvKpPress, ⟨kp, key⟩, e⟩ Dx)
      = some [Call.setCursor 0 (p._debugLine % h.LCD_ROWS),
          Call.print (zeroPadded 3 p._debugLine ++ " Key:".toList ++ ['P'] ++ decimal kp
            ++ "/".toList ++ zeroPadded 2 key ++ " Dx:".toList
            ++ [if Dx.Action = Directx.Action.AcRelease then 'R' else 'P']
            ++ zeroPadded 2 Dx.Button)] ∧
    callsOf (p.debugShowEvent h ⟨EventId.EvKpRelease, ⟨kp, key⟩, e⟩ Dx)
      = some [Call.setCursor 0 (p._debugLine % h.LCD_ROWS),
          Call.print (zeroPadded 3 p._debugLine ++ " Key:".toList ++ ['R'] ++ decimal kp
            ++ "/".toList ++ zeroPadded 2 key ++ " Dx:".toList
            ++ [if Dx.Action = Directx.Action.AcRelease then 'R' else 'P']
            ++ zeroPadded 2 Dx.Button)] := by
  rw [debugShowEvent_kpPress h hrows, debugShowEvent_kpRelease h hrows]
  exact ⟨rfl, rfl⟩

/-- The example of C3: the press of key 5 of keypad 2, mapped to the release of
button 9, is the first line after `debugStart`. -/
theorem debugShowEvent_key_line_witness :
    0 < header20x4.LCD_ROWS ∧
    callsOf ((DisplPnl.debugStart ⟨[13, 12, 11], 77⟩).1.debugShowEvent header20x4
        ⟨EventId.EvKpPress, ⟨2, 5⟩, 0⟩ ⟨Directx.Action.AcRelease, 9⟩)
      = some [Call.setCursor 0 0, Call.print "000 Key:P2/05 Dx:R09".toList] :=
  ⟨by decide,
   (debugShowEvent_key_line header20x4 (by decide) (DisplPnl.debugStart ⟨[13, 12, 11], 77⟩).1
      2 5 0 ⟨Directx.Action.AcRelease, 9⟩).1.trans (by decide)⟩

/-- C4: on a counterclockwise press or release of encoder `e`, with the counter
at `c`, `debugShowEvent` prints exactly: `c` zero-padded to 3 digits, " Enc:",
`P` for a press and `R` for a release, `e` in decimal, "CCW", " Dx:", `R` if the
mapped action is the release and `P` if not, the button zero-padded to 2
digits. -/
theorem debugShowEvent_ccw_line (h : Header) (hrows : 0 < h.LCD_ROWS) (p : DisplPnl)
    (k : KpEvent) (e : Nat) (Dx : Directx.Event_t) :
    callsOf (p.debugShowEvent h ⟨EventId.EvEncCcwPress, k, e⟩ Dx)
      = some [Call.setCursor 0 (p._debugLine % h.LCD_ROWS),
          Call.print (zeroPadded 3 p._debugLine ++ " Enc:".toList ++ ['P'] ++ decimal e
            ++ "CCW".toList ++ " Dx:".toList
            ++ [if Dx.Action = Directx.Action.AcRelease then 'R' else 'P']
            ++ zeroPadded 2 Dx.Button)] ∧
    callsOf (p.debugShowEvent h ⟨EventId.EvEncCcwRelease, k, e⟩ Dx)
      = some [Call.setCursor 0 (p._debugLine % h.LCD_ROWS),
          Call.print (zeroPadded 3 p._debugLine ++ " Enc:".toList ++ ['R'] ++ decimal e
            ++ "CCW".toList ++ " Dx:".toList
            ++ [if Dx.Action = Directx.Action.AcRelease then 'R' else 'P']
            ++ zeroPadded 2 Dx.Button)] := by
  rw [debugShowEvent_ccwPress h hrows, debugShowEvent_ccwRelease h hrows]
  exact ⟨rfl, rfl⟩

/-- The example of C4: the counterclockwise release of encoder 1, mapped to an
action that is not the release of button 3, with the counter at 1. -/
theorem debugShowEvent_ccw_line_witness :
    0 < header20x4.LCD_ROWS ∧
    callsOf (DisplPnl.debugShowEvent header20x4 ⟨[13, 12, 11], 1⟩
        ⟨EventId.EvEncCcwRelease, ⟨0, 0⟩, 1⟩ ⟨Directx.Action.AcOther 0, 3⟩)
      = some [Call.setCursor 0 1, Call.print "001 Enc:R1CCW Dx:P03".toList] :=
  ⟨by decide,
   (debugShowEvent_ccw_line header20x4 (by decide) ⟨[13, 12, 11], 1⟩
      ⟨0, 0⟩ 1 ⟨Directx.Action.AcOther 0, 3⟩).2.trans (by decide)⟩

/-- C5 as stated fails: the clockwise press of encoder 1, mapped to a press of
button 3, on the first call after `debugStart` prints "000 Enc:P1CW" and two
blanks before "Dx:P03", not the line with one blank. -/
theorem debugShowEvent_cw_one_blank_fails :
    callsOf ((DisplPnl.debugStart ⟨[13, 12, 11], 77⟩).1.debugShowEvent header20x4
        ⟨EventId.EvEncCwPress, ⟨0, 0⟩, 1⟩ ⟨Directx.Action.AcOther 0, 3⟩)
      = some [Call.setCursor 0 0, Call.print "000 Enc:P1CW  Dx:P03".toList] ∧
    callsOf ((DisplPnl.debugStart ⟨[13, 12, 11], 77⟩).1.debugShowEvent header20x4
        ⟨EventId.EvEncCwPress, ⟨0, 0⟩, 1⟩ ⟨Directx.Action.AcOther 0, 3⟩)
      ≠ some [Call.setCursor 0 0, Call.print "000 Enc:P1CW Dx:P03".toList] := by
  decide

/-- C5 as amended: on a clockwise press or release of encoder `e`, with the
counter at `c`, `debugShowEvent` prints exactly: `c` zero-padded to 3 digits,
" Enc:", `P` for a press and `R` for a release, `e` in decimal, "CW" followed
by one blank (the direction fills a field of 3 characters), " Dx:", `R` if the
mapped action is the release and `P` if not, the button zero-padded to 2
digits. -/
theorem debugShowEvent_cw_line (h : Header) (hrows : 0 < h.LCD_ROWS) (p : DisplPnl)
    (k : KpEvent) (e : Nat) (Dx : Directx.Event_t) :
    callsOf (p.debugShowEvent h ⟨EventId.EvEncCwPress, k, e⟩ Dx)
      = some [Call.setCursor 0 (p._debugLine % h.LCD_ROWS),
          Call.print (zeroPadded 3 p._debugLine ++ " Enc:".toList ++ ['P'] ++ decimal e
            ++ "CW ".toList ++ " Dx:".toList
            ++ [if Dx.Action = Directx.Action.AcRelease then 'R' else 'P']
            ++ zeroPadded 2 Dx.Button)] ∧
    callsOf (p.debugShowEvent h ⟨EventId.EvEncCwRelease, k, e⟩ Dx)
      = some [Call.setCursor 0 (p._debugLine % h.LCD_ROWS),
          Call.print (zeroPadded 3 p._debugLine ++ " Enc:".toList ++ ['R'] ++ decimal e
            ++ "CW ".toList ++ " Dx:".toList
            ++ [if Dx.Action = Directx.Action.AcRelease then 'R' else 'P']
            ++ zeroPadded 2 Dx.Button)] := by
  rw [debugShowEvent_cwPress h hrows, debugShowEvent_cwRelease h hrows]
  exact ⟨rfl, rfl⟩

/-- The example of C5 as amended: the clockwise release of encoder 1, mapped to
the release of button 3, with the counter at 5. -/
theorem debugShowEvent_cw_line_witness :
    0 < header20x4.LCD_ROWS ∧
    callsOf (DisplPnl.debugShowEvent header20x4 ⟨[13, 12, 11], 5⟩
        ⟨EventId.EvEncCwRelease, ⟨0, 0⟩, 1⟩ ⟨Directx.Action.AcRelease, 3⟩)
      = some [Call.setCursor 0 1, Call.print "005 Enc:R1CW  Dx:R03".toList] :=
  ⟨by decide,
   (debugShowEvent_cw_line header20x4 (by decide) ⟨[13, 12, 11], 5⟩
      ⟨0, 0⟩ 1 ⟨Directx.Action.AcRelease, 3⟩).2.trans (by decide)⟩

/-! ## Runs of calls and the line counter -/

/-- After `debugStart`, a run of valid events and then one more call: the
run returns, and the call that follows works with the counter
`n % 2 ^ debugLineBits`, `n` the number of calls of the run. -/
theorem debugShowEvents_then_call (h : Header) (hrows : 0 < h.LCD_ROWS) (p : DisplPnl)
    (evs : List (Event × Directx.Event_t)) (hvalid : ∀ ed ∈ evs, ed.1.Id ≠ EventId.EvNone)
    (Ev : Event) (hEv : Ev.Id ≠ EventId.EvNone) (Dx : Directx.Event_t) :
    ∃ last outs, DisplPnl.debugShowEvents h p.debugStart.1 evs = some (last, outs) ∧
      outs.length = evs.length ∧
      callsOf (last.debugShowEvent h Ev Dx)
        = some [Call.setCursor 0 (evs.length % 2 ^ h.debugLineBits % h.LCD_ROWS),
            Call.print (diagLine (evs.length % 2 ^ h.debugLineBits) Ev Dx)] := by
  have hpos : 0 < 2 ^ h.debugLineBits := Nat.pow_pos (by decide)
  obtain ⟨outs, hrun, hlen, -⟩ := debugShowEvents_nth h hrows evs p.debugStart.1 hpos hvalid
  refine ⟨_, outs, hrun, hlen, ?_⟩
  rw [debugShowEvent_valid h hrows _ Ev hEv Dx]
  simp [callsOf, DisplPnl.debugStart]

/-- After `debugStart`, call `k` of a run of valid events works with the
counter `k % 2 ^ debugLineBits`. -/
theorem debugShowEvents_after_start (h : Header) (hrows : 0 < h.LCD_ROWS) (p : DisplPnl)
    (evs : List (Event × Directx.Event_t)) (hvalid : ∀ ed ∈ evs, ed.1.Id ≠ EventId.EvNone) :
    ∃ last outs, DisplPnl.debugShowEvents h p.debugStart.1 evs = some (last, outs) ∧
      outs.length = evs.length ∧
      ∀ k, k < evs.length → ∃ rest,
        outs[k]? = some
          [Call.setCursor 0 (k % 2 ^ h.debugLineBits % h.LCD_ROWS),
           Call.print (zeroPadded 3 (k % 2 ^ h.debugLineBits) ++ ' ' :: rest)] := by
  have hpos : 0 < 2 ^ h.debugLineBits := Nat.pow_pos (by decide)
  obtain ⟨outs, hrun, hlen, hnth⟩ := debugShowEvents_nth h hrows evs p.debugStart.1 hpos hvalid
  refine ⟨_, outs, hrun, hlen, ?_⟩
  intro k hk
  have hget : evs[k]? = some (evs[k].1, evs[k].2) := by simp [List.getElem?_eq_getElem hk]
  have hEv : (evs[k]).1.Id ≠ EventId.EvNone := hvalid _ (List.getElem_mem _)
  obtain ⟨rest, hrest⟩ := diagLine_ordinal (k % 2 ^ h.debugLineBits) evs[k].1 hEv evs[k].2
  refine ⟨rest, ?_⟩
  have := hnth k _ _ hget
  simpa [DisplPnl.debugStart, hrest] using this

/-- C6 as stated fails for every width of the counter.  With a `uint8_t`
counter on the 20 x 4 display, call 256 after `debugStart` prints the ordinal
000, not 256.  Whatever `displpnl.h` declares, call `2 ^ debugLineBits` of a
run does not print its own number. -/
theorem debugShowEvents_ordinal_fails :
    (∃ last outs, DisplPnl.debugShowEvents header20x4 (DisplPnl.debugStart ⟨[13, 12, 11], 77⟩).1
          (List.replicate 257 (⟨EventId.EvKpPress, ⟨0, 0⟩, 0⟩, ⟨Directx.Action.AcOther 0, 0⟩))
        = some (last, outs) ∧
      outs[256]? = some [Call.setCursor 0 0, Call.print "000 Key:P0/00 Dx:P00".toList]) ∧
    ¬ ∃ h : Header, 0 < h.LCD_ROWS ∧
      ∀ (p : DisplPnl) (evs : List (Event × Directx.Event_t)),
        (∀ ed ∈ evs, ed.1.Id ≠ EventId.EvNone) →
        ∃ last outs, DisplPnl.debugShowEvents h p.debugStart.1 evs = some (last, outs) ∧
          ∀ k, k < evs.length → ∃ rest,
            outs[k]? = some [Call.setCursor 0 (k % h.LCD_ROWS),
              Call.print (zeroPadded 3 k ++ ' ' :: rest)] := by
  constructor
  · obtain ⟨outs2, hrun2, -, hnth2⟩ :=
      debugShowEvents_nth header20x4 (by decide)
        (List.replicate 257 (⟨EventId.EvKpPress, ⟨0, 0⟩, 0⟩, ⟨Directx.Action.AcOther 0, 0⟩))
        (DisplPnl.debugStart ⟨[13, 12, 11], 77⟩).1 (by decide)
        (by intro ed hed; rw [List.eq_of_mem_replicate hed]; decide)
    refine ⟨_, outs2, hrun2, ?_⟩
    rw [hnth2 256 ⟨EventId.EvKpPress, ⟨0, 0⟩, 0⟩ ⟨Directx.Action.AcOther 0, 0⟩
      (by rw [List.getElem?_replicate, if_pos (by decide)])]
    decide
  · rintro ⟨h, hrows, hall⟩
    have hpos : 0 < 2 ^ h.debugLineBits := Nat.pow_pos (by decide)
    have hv : ∀ ed ∈ List.replicate (2 ^ h.debugLineBits + 1)
        ((⟨EventId.EvKpPress, ⟨0, 0⟩, 0⟩, ⟨Directx.Action.AcOther 0, 0⟩) :
          Event × Directx.Event_t), ed.1.Id ≠ EventId.EvNone := by
      intro ed hed; rw [List.eq_of_mem_replicate hed]; decide
    obtain ⟨last, outs, hrun, hk⟩ := hall ⟨[], 0⟩ _ hv
    obtain ⟨last2, outs2, hrun2, -, hk2⟩ := debugShowEvents_after_start h hrows ⟨[], 0⟩ _ hv
    rw [hrun] at hrun2
    obtain ⟨-, rfl⟩ := Prod.mk.inj (Option.some.inj hrun2)
    obtain ⟨rest, hr⟩ := hk (2 ^ h.debugLineBits) (by simp)
    obtain ⟨rest2, hr2⟩ := hk2 (2 ^ h.debugLineBits) (by simp)
    rw [hr] at hr2
    simp only [Nat.mod_self, Option.some.injEq, List.cons.injEq, Call.setCursor.injEq,
      Call.print.injEq, and_true, true_and] at hr2
    have := zeroPadded_inj 3 _ _ _ _ hr2.2
    omega

/-- C6 as amended: after `debugStart`, a run of valid events returns, and call
`k` of the run (from 0) places its line at column 0, row
`(k mod 2^w) mod LCD_ROWS`, the line starting with `k mod 2^w` on 3 digits and
a blank, `w` the width of `_debugLine`; so for `k < 2^w` the row is
`k mod LCD_ROWS` and the ordinal is `k`. -/
theorem debugShowEvents_rows_and_ordinals (h : Header) (hrows : 0 < h.LCD_ROWS)
    (p : DisplPnl) (evs : List (Event × Directx.Event_t))
    (hvalid : ∀ ed ∈ evs, ed.1.Id ≠ EventId.EvNone) :
    ∃ last outs, DisplPnl.debugShowEvents h p.debugStart.1 evs = some (last, outs) ∧
      outs.length = evs.length ∧
      ∀ k, k < evs.length → ∃ rest,
        outs[k]? = some
          [Call.setCursor 0 (k % 2 ^ h.debugLineBits % h.LCD_ROWS),
           Call.print (zeroPadded 3 (k % 2 ^ h.debugLineBits) ++ ' ' :: rest)] ∧
        (k < 2 ^ h.debugLineBits →
          outs[k]? = some
            [Call.setCursor 0 (k % h.LCD_ROWS), Call.print (zeroPadded 3 k ++ ' ' :: rest)]) := by
  obtain ⟨last, outs, hrun, hlen, hnth⟩ := debugShowEvents_after_start h hrows p evs hvalid
  refine ⟨last, outs, hrun, hlen, ?_⟩
  intro k hk
  obtain ⟨rest, hr⟩ := hnth k hk
  refine ⟨rest, hr, ?_⟩
  intro hlt
  rw [hr, Nat.mod_eq_of_lt hlt]

/-- The example of C6: three calls after `debugStart` on the 20 x 4 display
write on rows 0, 1, 2 the ordinals 000, 001, 002. -/
theorem debugShowEvents_rows_and_ordinals_witness :
    (0 < header20x4.LCD_ROWS ∧
      ∀ ed ∈ [((⟨EventId.EvKpPress, ⟨2, 5⟩, 0⟩, ⟨Directx.Action.AcRelease, 9⟩) :
            Event × Directx.Event_t),
          (⟨EventId.EvEncCcwRelease, ⟨0, 0⟩, 1⟩, ⟨Directx.Action.AcOther 0, 3⟩),
          (⟨EventId.EvEncCwPress, ⟨0, 0⟩, 1⟩, ⟨Directx.Action.AcOther 0, 3⟩)],
        ed.1.Id ≠ EventId.EvNone) ∧
    (∃ last outs, DisplPnl.debugShowEvents header20x4 (DisplPnl.debugStart ⟨[13, 12, 11], 77⟩).1
        [(⟨EventId.EvKpPress, ⟨2, 5⟩, 0⟩, ⟨Directx.Action.AcRelease, 9⟩),
          (⟨EventId.EvEncCcwRelease, ⟨0, 0⟩, 1⟩, ⟨Directx.Action.AcOther 0, 3⟩),
          (⟨EventId.EvEncCwPress, ⟨0, 0⟩, 1⟩, ⟨Directx.Action.AcOther 0, 3⟩)]
          = some (last, outs) ∧
        outs.length = 3 ∧
        ∀ k, k < 3 → ∃ rest,
          outs[k]? = some
            [Call.setCursor 0 (k % 2 ^ header20x4.debugLineBits % header20x4.LCD_ROWS),
             Call.print (zeroPadded 3 (k % 2 ^ header20x4.debugLineBits) ++ ' ' :: rest)] ∧
          (k < 2 ^ header20x4.debugLineBits →
            outs[k]? = some
              [Call.setCursor 0 (k % header20x4.LCD_ROWS),
               Call.print (zeroPadded 3 k ++ ' ' :: rest)])) ∧
    DisplPnl.debugShowEvents header20x4 (DisplPnl.debugStart ⟨[13, 12, 11], 77⟩).1
        [(⟨EventId.EvKpPress, ⟨2, 5⟩, 0⟩, ⟨Directx.Action.AcRelease, 9⟩),
          (⟨EventId.EvEncCcwRelease, ⟨0, 0⟩, 1⟩, ⟨Directx.Action.AcOther 0, 3⟩),
          (⟨EventId.EvEncCwPress, ⟨0, 0⟩, 1⟩, ⟨Directx.Action.AcOther 0, 3⟩)]
      = some (⟨[13, 12, 11], 3⟩,
          [[Call.setCursor 0 0, Call.print "000 Key:P2/05 Dx:R09".toList],
           [Call.setCursor 0 1, Call.print "001 Enc:R1CCW Dx:P03".toList],
           [Call.setCursor 0 2, Call.print "002 Enc:P1CW  Dx:P03".toList]]) :=
  ⟨⟨by decide, by decide⟩,
   debugShowEvents_rows_and_ordinals header20x4 (by decide) ⟨[13, 12, 11], 77⟩ _ (by decide),
   by decide⟩

/-- C7 as stated fails for every width of the counter.  With a `uint8_t`
counter on the 20 x 4 display, the call after 256 calls prints the ordinal 000
on row 0.  Whatever `displpnl.h` declares, the call after `2 ^ debugLineBits`
calls does not print that number. -/
theorem debugShowEvent_ordinal_unwrapped_fails :
    (∃ last outs, DisplPnl.debugShowEvents header20x4 (DisplPnl.debugStart ⟨[13, 12, 11], 77⟩).1
          (List.replicate 256 (⟨EventId.EvKpPress, ⟨0, 0⟩, 0⟩, ⟨Directx.Action.AcOther 0, 0⟩))
        = some (last, outs) ∧ outs.length = 256 ∧
      callsOf (last.debugShowEvent header20x4
          ⟨EventId.EvKpPress, ⟨0, 0⟩, 0⟩ ⟨Directx.Action.AcOther 0, 0⟩)
        = some [Call.setCursor 0 0, Call.print "000 Key:P0/00 Dx:P00".toList]) ∧
    ¬ ∃ h : Header, 0 < h.LCD_ROWS ∧
      ∀ (p : DisplPnl) (evs : List (Event × Directx.Event_t)) (Ev : Event)
        (Dx : Directx.Event_t),
        (∀ ed ∈ evs, ed.1.Id ≠ EventId.EvNone) → Ev.Id ≠ EventId.EvNone →
        ∃ last outs rest, DisplPnl.debugShowEvents h p.debugStart.1 evs = some (last, outs) ∧
          callsOf (last.debugShowEvent h Ev Dx)
            = some [Call.setCursor 0 (evs.length % h.LCD_ROWS),
                Call.print (zeroPadded 3 evs.length ++ ' ' :: rest)] := by
  constructor
  · obtain ⟨last, outs, hrun, hlen, hcall⟩ :=
      debugShowEvents_then_call header20x4 (by decide) ⟨[13, 12, 11], 77⟩
        (List.replicate 256 (⟨EventId.EvKpPress, ⟨0, 0⟩, 0⟩, ⟨Directx.Action.AcOther 0, 0⟩))
        (by intro ed hed; rw [List.eq_of_mem_replicate hed]; decide)
        ⟨EventId.EvKpPress, ⟨0, 0⟩, 0⟩ (by decide) ⟨Directx.Action.AcOther 0, 0⟩
    refine ⟨last, outs, hrun, by rw [hlen, List.length_replicate], ?_⟩
    rw [hcall, List.length_replicate]
    decide
  · rintro ⟨h, hrows, hall⟩
    have hv : ∀ ed ∈ List.replicate (2 ^ h.debugLineBits)
        ((⟨EventId.EvKpPress, ⟨0, 0⟩, 0⟩, ⟨Directx.Action.AcOther 0, 0⟩) :
          Event × Directx.Event_t), ed.1.Id ≠ EventId.EvNone := by
      intro ed hed; rw [List.eq_of_mem_replicate hed]; decide
    have hE : (⟨EventId.EvKpPress, ⟨0, 0⟩, 0⟩ : Event).Id ≠ EventId.EvNone := by decide
    obtain ⟨last, outs, rest, hrun, hcall⟩ :=
      hall ⟨[], 0⟩ _ ⟨EventId.EvKpPress, ⟨0, 0⟩, 0⟩ ⟨Directx.Action.AcOther 0, 0⟩ hv hE
    obtain ⟨last2, outs2, hrun2, -, hcall2⟩ :=
      debugShowEvents_then_call h hrows ⟨[], 0⟩ _ hv _ hE ⟨Directx.Action.AcOther 0, 0⟩
    rw [hrun] at hrun2
    obtain ⟨rfl, -⟩ := Prod.mk.inj (Option.some.inj hrun2)
    obtain ⟨rest2, hr2⟩ := diagLine_ordinal
      ((List.replicate (2 ^ h.debugLineBits)
        ((⟨EventId.EvKpPress, ⟨0, 0⟩, 0⟩, ⟨Directx.Action.AcOther 0, 0⟩) :
          Event × Directx.Event_t)).length % 2 ^ h.debugLineBits)
      ⟨EventId.EvKpPress, ⟨0, 0⟩, 0⟩ hE ⟨Directx.Action.AcOther 0, 0⟩
    rw [hcall, hr2] at hcall2
    simp only [List.length_replicate, Nat.mod_self, Option.some.injEq, List.cons.injEq,
      Call.setCursor.injEq, Call.print.injEq, and_true, true_and] at hcall2
    have := zeroPadded_inj 3 _ _ _ _ hcall2.2
    have hpos : 0 < 2 ^ h.debugLineBits := Nat.pow_pos (by decide)
    omega

/-- C7 as amended: the ordinal is the counter, which wraps at `2^w`, `w` the
width of `_debugLine`.  After `n` calls since `debugStart`, the next call
prints at column 0, row `(n mod 2^w) mod LCD_ROWS`, a line that starts with
`n mod 2^w` on at least 3 digits; for `n < 2^w` the ordinal is `n`, the number
of lines rendered so far, and the row is `n mod LCD_ROWS`. -/
theorem debugShowEvent_ordinal (h : Header) (hrows : 0 < h.LCD_ROWS) (p : DisplPnl)
    (evs : List (Event × Directx.Event_t)) (hvalid : ∀ ed ∈ evs, ed.1.Id ≠ EventId.EvNone)
    (Ev : Event) (hEv : Ev.Id ≠ EventId.EvNone) (Dx : Directx.Event_t) :
    ∃ last outs rest, DisplPnl.debugShowEvents h p.debugStart.1 evs = some (last, outs) ∧
      outs.length = evs.length ∧
      callsOf (last.debugShowEvent h Ev Dx)
        = some [Call.setCursor 0 (evs.length % 2 ^ h.debugLineBits % h.LCD_ROWS),
            Call.print (zeroPadded 3 (evs.length % 2 ^ h.debugLineBits) ++ ' ' :: rest)] ∧
      leadingNat (zeroPadded 3 (evs.length % 2 ^ h.debugLineBits) ++ ' ' :: rest)
        = evs.length % 2 ^ h.debugLineBits ∧
      (evs.length < 2 ^ h.debugLineBits →
        callsOf (last.debugShowEvent h Ev Dx)
          = some [Call.setCursor 0 (evs.length % h.LCD_ROWS),
              Call.print (zeroPadded 3 evs.length ++ ' ' :: rest)]) := by
  obtain ⟨last, outs, hrun, hlen, hcall⟩ :=
    debugShowEvents_then_call h hrows p evs hvalid Ev hEv Dx
  obtain ⟨rest, hr⟩ := diagLine_ordinal (evs.length % 2 ^ h.debugLineBits) Ev hEv Dx
  refine ⟨last, outs, rest, hrun, hlen, ?_, leadingNat_zeroPadded _ _ _, ?_⟩
  · rw [hcall, hr]
  · intro hlt
    rw [hcall, hr, Nat.mod_eq_of_lt hlt]

/-- The example of C7: on the 20 x 4 display, after one call since
`debugStart` the next call prints the ordinal 1 on row 1. -/
theorem debugShowEvent_ordinal_witness :
    (0 < header20x4.LCD_ROWS ∧
      (∀ ed ∈ [((⟨EventId.EvKpPress, ⟨2, 5⟩, 0⟩, ⟨Directx.Action.AcRelease, 9⟩) :
          Event × Directx.Event_t)], ed.1.Id ≠ EventId.EvNone) ∧
      (⟨EventId.EvEncCcwRelease, ⟨0, 0⟩, 1⟩ : Event).Id ≠ EventId.EvNone) ∧
    ∃ last outs rest,
      DisplPnl.debugShowEvents header20x4 (DisplPnl.debugStart ⟨[13, 12, 11], 77⟩).1
          [(⟨EventId.EvKpPress, ⟨2, 5⟩, 0⟩, ⟨Directx.Action.AcRelease, 9⟩)]
        = some (last, outs) ∧
      outs.length = 1 ∧
      callsOf (last.debugShowEvent header20x4 ⟨EventId.EvEncCcwRelease, ⟨0, 0⟩, 1⟩
          ⟨Directx.Action.AcOther 0, 3⟩)
        = some [Call.setCursor 0 (1 % 2 ^ 8 % 4),
            Call.print (zeroPadded 3 (1 % 2 ^ 8) ++ ' ' :: rest)] ∧
      leadingNat (zeroPadded 3 (1 % 2 ^ 8) ++ ' ' :: rest) = 1 % 2 ^ 8 ∧
      (1 < 2 ^ 8 →
        callsOf (last.debugShowEvent header20x4 ⟨EventId.EvEncCcwRelease, ⟨0, 0⟩, 1⟩
            ⟨Directx.Action.AcOther 0, 3⟩)
          = some [Call.setCursor 0 (1 % 4), Call.print (zeroPadded 3 1 ++ ' ' :: rest)]) :=
  ⟨⟨by decide, by decide, by decide⟩,
   debugShowEvent_ordinal header20x4 (by decide) ⟨[13, 12, 11], 77⟩
     [(⟨EventId.EvKpPress, ⟨2, 5⟩, 0⟩, ⟨Directx.Action.AcRelease, 9⟩)] (by decide)
     ⟨EventId.EvEncCcwRelease, ⟨0, 0⟩, 1⟩ (by decide) ⟨Directx.Action.AcOther 0, 3⟩⟩

/-- C8 as stated fails for every width of the counter.  With a `uint8_t`
counter at 255 the call leaves the counter at 0, not 256.  Whatever
`displpnl.h` declares, a call with the counter at its largest value
`2 ^ debugLineBits - 1` does not leave it one higher. -/
theorem debugShowEvent_counter_succ_fails :
    stateOf (DisplPnl.debugShowEvent header20x4 ⟨[13, 12, 11], 255⟩
        ⟨EventId.EvKpPress, ⟨0, 0⟩, 0⟩ ⟨Directx.Action.AcOther 0, 0⟩)
      = some ⟨[13, 12, 11], 0⟩ ∧
    ¬ ∃ h : Header, 0 < h.LCD_ROWS ∧
      ∀ (p : DisplPnl) (Ev : Event) (Dx : Directx.Event_t),
        p._debugLine < 2 ^ h.debugLineBits → Ev.Id ≠ EventId.EvNone →
        stateOf (p.debugShowEvent h Ev Dx) = some { p with _debugLine := p._debugLine + 1 } := by
  constructor
  · decide
  · rintro ⟨h, hrows, hall⟩
    have hpos : 0 < 2 ^ h.debugLineBits := Nat.pow_pos (by decide)
    have hE : (⟨EventId.EvKpPress, ⟨0, 0⟩, 0⟩ : Event).Id ≠ EventId.EvNone := by decide
    have h1 := hall ⟨[], 2 ^ h.debugLineBits - 1⟩ ⟨EventId.EvKpPress, ⟨0, 0⟩, 0⟩
      ⟨Directx.Action.AcOther 0, 0⟩ (by simp only; omega) hE
    rw [debugShowEvent_valid h hrows _ _ hE] at h1
    simp only [stateOf, Option.map_some', Option.some.injEq, DisplPnl.mk.injEq, true_and] at h1
    rw [Nat.sub_add_cancel hpos, Nat.mod_self] at h1
    omega

/-- C8 as amended: one call of `debugShowEvent` with a valid event, whatever
its tag and the mapped event, makes exactly the calls `setCursor(0, c mod
LCD_ROWS)` and `print` of the line rendered with the counter `c` it found, and
leaves the counter at `(c + 1) mod 2^w`, `w` the width of `_debugLine`: at
`c + 1` below the largest value of the type, at 0 from the largest value. -/
theorem debugShowEvent_one_call (h : Header) (hrows : 0 < h.LCD_ROWS) (p : DisplPnl)
    (Ev : Event) (hEv : Ev.Id ≠ EventId.EvNone) (Dx : Directx.Event_t) :
    p.debugShowEvent h Ev Dx
      = some ({ p with _debugLine := (p._debugLine + 1) % 2 ^ h.debugLineBits },
          [Call.setCursor 0 (p._debugLine % h.LCD_ROWS),
           Call.print (diagLine p._debugLine Ev Dx)]) ∧
    (p._debugLine + 1 < 2 ^ h.debugLineBits →
      stateOf (p.debugShowEvent h Ev Dx) = some { p with _debugLine := p._debugLine + 1 }) ∧
    (p._debugLine + 1 = 2 ^ h.debugLineBits →
      stateOf (p.debugShowEvent h Ev Dx) = some { p with _debugLine := 0 }) := by
  refine ⟨debugShowEvent_valid h hrows p Ev hEv Dx, ?_, ?_⟩
  · intro hlt
    rw [debugShowEvent_valid h hrows p Ev hEv Dx]
    simp [stateOf, Nat.mod_eq_of_lt hlt]
  · intro heq
    rw [debugShowEvent_valid h hrows p Ev hEv Dx]
    simp [stateOf, heq]

/-- The example of C8: the clockwise press of encoder 1 with the counter at 6
on the 20 x 4 display goes to row 2 and leaves the counter at 7. -/
theorem debugShowEvent_one_call_witness :
    (0 < header20x4.LCD_ROWS ∧ (⟨EventId.EvEncCwPress, ⟨0, 0⟩, 1⟩ : Event).Id ≠ EventId.EvNone) ∧
    DisplPnl.debugShowEvent header20x4 ⟨[13, 12, 11], 6⟩ ⟨EventId.EvEncCwPress, ⟨0, 0⟩, 1⟩
        ⟨Directx.Action.AcOther 0, 3⟩
      = some (⟨[13, 12, 11], 7⟩,
          [Call.setCursor 0 2, Call.print "006 Enc:P1CW  Dx:P03".toList]) :=
  ⟨⟨by decide, by decide⟩,
   (debugShowEvent_one_call header20x4 (by decide) ⟨[13, 12, 11], 6⟩
      ⟨EventId.EvEncCwPress, ⟨0, 0⟩, 1⟩ (by decide) ⟨Directx.Action.AcOther 0, 3⟩).1.trans
     (by decide)⟩

/-- C9: in the line of every valid event, whatever its tag, the character right
after "Dx:" is `R` exactly when the mapped action is the release, and `P` for
every other action. -/
theorem debugShowEvent_dx_letter (h : Header) (hrows : 0 < h.LCD_ROWS) (p : DisplPnl)
    (Ev : Event) (hEv : Ev.Id ≠ EventId.EvNone) (Dx : Directx.Event_t) :
    ∃ line, callsOf (p.debugShowEvent h Ev Dx)
        = some [Call.setCursor 0 (p._debugLine % h.LCD_ROWS), Call.print line] ∧
      (charAfter "Dx:".toList line = some 'R' ↔ Dx.Action = Directx.Action.AcRelease) ∧
      (Dx.Action ≠ Directx.Action.AcRelease → charAfter "Dx:".toList line = some 'P') := by
  refine ⟨diagLine p._debugLine Ev Dx, ?_, ?_, ?_⟩
  · rw [debugShowEvent_valid h hrows p Ev hEv Dx]
    rfl
  · rw [charAfter_diagLine _ Ev hEv Dx, dxLetter]
    by_cases hA : Dx.Action = Directx.Action.AcRelease
    · simp [hA]
    · simp only [hA, if_false, iff_false]
      decide
  · intro hA
    rw [charAfter_diagLine _ Ev hEv Dx, dxLetter, if_neg hA]

/-- The example of C9: one key press, mapped once to the release and once to
another action of button 9. -/
theorem debugShowEvent_dx_letter_witness :
    (0 < header20x4.LCD_ROWS ∧ (⟨EventId.EvKpPress, ⟨2, 5⟩, 0⟩ : Event).Id ≠ EventId.EvNone) ∧
    (∃ line, callsOf (DisplPnl.debugShowEvent header20x4 ⟨[13, 12, 11], 0⟩
          ⟨EventId.EvKpPress, ⟨2, 5⟩, 0⟩ ⟨Directx.Action.AcOther 7, 9⟩)
        = some [Call.setCursor 0 (0 % 4), Call.print line] ∧
      (charAfter "Dx:".toList line = some 'R'
        ↔ Directx.Action.AcOther 7 = Directx.Action.AcRelease) ∧
      (Directx.Action.AcOther 7 ≠ Directx.Action.AcRelease →
        charAfter "Dx:".toList line = some 'P')) ∧
    charAfter "Dx:".toList "000 Key:P2/05 Dx:R09".toList = some 'R' ∧
    charAfter "Dx:".toList "000 Key:P2/05 Dx:P09".toList = some 'P' :=
  ⟨⟨by decide, by decide⟩,
   debugShowEvent_dx_letter header20x4 (by decide) ⟨[13, 12, 11], 0⟩
     ⟨EventId.EvKpPress, ⟨2, 5⟩, 0⟩ (by decide) ⟨Directx.Action.AcOther 7, 9⟩,
   by decide, by decide⟩

/-! ## The mode label -/

/-- C10: on a display of width `W = LCD_COLS`, for every mode name whose
label fits (`length name + 4 <= W`), `showMode` clears the display, sets the
cursor to row 0, column `(W - (length name + 4)) / 2`, and prints the label
"* " ++ name ++ " *", of length `length name + 4`. -/
theorem showMode_centred (h : Header) (hcols : h.LCD_COLS < 256) (p : DisplPnl)
    (name : List Char) (hfit : name.length + 4 ≤ h.LCD_COLS) :
    p.showMode h name
      = some (p, [Call.clear, Call.setCursor ((h.LCD_COLS - (name.length + 4)) / 2) 0,
          Call.print ("* ".toList ++ name ++ " *".toList)]) ∧
    ("* ".toList ++ name ++ " *".toList).length = name.length + 4 :=
  ⟨showMode_fits h hcols p name hfit, by simp⟩

/-- The example of C10: "TEST" on the 20 x 4 display is the 8 characters
"* TEST *" at column 6 = (20 - 8) / 2. -/
theorem showMode_centred_witness :
    (header20x4.LCD_COLS < 256 ∧ "TEST".toList.length + 4 ≤ header20x4.LCD_COLS) ∧
    DisplPnl.showMode header20x4 ⟨[13, 12, 11], 0⟩ "TEST".toList
      = some (⟨[13, 12, 11], 0⟩,
          [Call.clear, Call.setCursor 6 0, Call.print "* TEST *".toList]) ∧
    "* TEST *".toList.length = 8 :=
  ⟨⟨by decide, by decide⟩,
   (showMode_centred header20x4 (by decide) ⟨[13, 12, 11], 0⟩ "TEST".toList (by decide)).1.trans
     (by decide),
   by decide⟩

/-! ## Debug mode start -/

/-- C11: `debugStart` makes exactly one call, `clear`, and sets the counter to
0 whatever it was; so after any run of calls of `debugShowEvent`, the first
call after `debugStart` prints at column 0, row 0, a line that starts with
"000". -/
theorem debugStart_resets (h : Header) (hrows : 0 < h.LCD_ROWS) (p : DisplPnl)
    (evs : List (Event × Directx.Event_t)) (hvalid : ∀ ed ∈ evs, ed.1.Id ≠ EventId.EvNone)
    (Ev : Event) (hEv : Ev.Id ≠ EventId.EvNone) (Dx : Directx.Event_t) :
    p.debugStart = ({ p with _debugLine := 0 }, [Call.clear]) ∧
    (∃ rest, callsOf (p.debugStart.1.debugShowEvent h Ev Dx)
        = some [Call.setCursor 0 0, Call.print ("000 ".toList ++ rest)]) ∧
    ∃ last outs rest, DisplPnl.debugShowEvents h p.debugStart.1 evs = some (last, outs) ∧
      outs.length = evs.length ∧
      last.debugStart = ({ last with _debugLine := 0 }, [Call.clear]) ∧
      callsOf (last.debugStart.1.debugShowEvent h Ev Dx)
        = some [Call.setCursor 0 0, Call.print ("000 ".toList ++ rest)] := by
  have hfirst : ∀ q : DisplPnl, ∃ rest, callsOf (q.debugStart.1.debugShowEvent h Ev Dx)
      = some [Call.setCursor 0 0, Call.print ("000 ".toList ++ rest)] := by
    intro q
    obtain ⟨rest, hr⟩ := diagLine_ordinal 0 Ev hEv Dx
    refine ⟨rest, ?_⟩
    rw [debugShowEvent_valid h hrows _ Ev hEv Dx]
    simp only [callsOf, DisplPnl.debugStart, Option.map_some', Nat.zero_mod, hr]
    rfl
  have hpos : 0 < 2 ^ h.debugLineBits := Nat.pow_pos (by decide)
  obtain ⟨outs, hrun, hlen, -⟩ := debugShowEvents_nth h hrows evs p.debugStart.1 hpos hvalid
  obtain ⟨rest, hr⟩ := hfirst
    { p.debugStart.1 with
      _debugLine := (p.debugStart.1._debugLine + evs.length) % 2 ^ h.debugLineBits }
  exact ⟨rfl, hfirst p, _, outs, rest, hrun, hlen, rfl, hr⟩

/-- The example of C11: on the 20 x 4 display, after `debugStart` and three
lines, `debugStart` again makes the next line the line 000 of row 0. -/
theorem debugStart_resets_witness :
    (0 < header20x4.LCD_ROWS ∧
      (∀ ed ∈ [((⟨EventId.EvKpPress, ⟨2, 5⟩, 0⟩, ⟨Directx.Action.AcRelease, 9⟩) :
            Event × Directx.Event_t),
          (⟨EventId.EvEncCcwRelease, ⟨0, 0⟩, 1⟩, ⟨Directx.Action.AcOther 0, 3⟩),
          (⟨EventId.EvEncCwPress, ⟨0, 0⟩, 1⟩, ⟨Directx.Action.AcOther 0, 3⟩)],
        ed.1.Id ≠ EventId.EvNone) ∧
      (⟨EventId.EvKpRelease, ⟨2, 5⟩, 0⟩ : Event).Id ≠ EventId.EvNone) ∧
    (DisplPnl.debugStart ⟨[13, 12, 11], 77⟩ = (⟨[13, 12, 11], 0⟩, [Call.clear]) ∧
      callsOf ((DisplPnl.debugStart ⟨[13, 12, 11], 77⟩).1.debugShowEvent header20x4
          ⟨EventId.EvKpRelease, ⟨2, 5⟩, 0⟩ ⟨Directx.Action.AcRelease, 9⟩)
        = some [Call.setCursor 0 0, Call.print "000 Key:R2/05 Dx:R09".toList]) ∧
    DisplPnl.debugShowEvents header20x4 (DisplPnl.debugStart ⟨[13, 12, 11], 77⟩).1
        [(⟨EventId.EvKpPress, ⟨2, 5⟩, 0⟩, ⟨Directx.Action.AcRelease, 9⟩),
          (⟨EventId.EvEncCcwRelease, ⟨0, 0⟩, 1⟩, ⟨Directx.Action.AcOther 0, 3⟩),
          (⟨EventId.EvEncCwPress, ⟨0, 0⟩, 1⟩, ⟨Directx.Action.AcOther 0, 3⟩)]
      = some (⟨[13, 12, 11], 3⟩,
          [[Call.setCursor 0 0, Call.print "000 Key:P2/05 Dx:R09".toList],
           [Call.setCursor 0 1, Call.print "001 Enc:R1CCW Dx:P03".toList],
           [Call.setCursor 0 2, Call.print "002 Enc:P1CW  Dx:P03".toList]]) ∧
    callsOf ((DisplPnl.debugStart ⟨[13, 12, 11], 3⟩).1.debugShowEvent header20x4
        ⟨EventId.EvKpRelease, ⟨2, 5⟩, 0⟩ ⟨Directx.Action.AcRelease, 9⟩)
      = some [Call.setCursor 0 0, Call.print "000 Key:R2/05 Dx:R09".toList] :=
  ⟨⟨by decide, by decide, by decide⟩,
   ⟨(debugStart_resets header20x4 (by decide) ⟨[13, 12, 11], 77⟩
      [(⟨EventId.EvKpPress, ⟨2, 5⟩, 0⟩, ⟨Directx.Action.AcRelease, 9⟩),
        (⟨EventId.EvEncCcwRelease, ⟨0, 0⟩, 1⟩, ⟨Directx.Action.AcOther 0, 3⟩),
        (⟨EventId.EvEncCwPress, ⟨0, 0⟩, 1⟩, ⟨Directx.Action.AcOther 0, 3⟩)] (by decide)
      ⟨EventId.EvKpRelease, ⟨2, 5⟩, 0⟩ (by decide) ⟨Directx.Action.AcRelease, 9⟩).1,
    by decide⟩,
   by decide, by decide⟩

/-! ## The LEDs -/

/-- C12: with `LedWrn` and `LedClr` inside the pin list, `a10cMasterCaut(v)`
and `fa18cMasterCaut(v)` each make exactly one call, the write of `v` to the
pin of `LedWrn`, and `fa18cApuReady(v)` exactly the write of `v` to the pin of
`LedClr`; none makes a call on the display, none changes the line counter or
the pin list, and a write after any earlier write still carries its own value
(nothing is cached). -/
theorem led_writes (h : Header) (p : DisplPnl) (pinWrn pinClr : Nat)
    (hWrn : p._LedPin[h.LedWrn]? = some pinWrn) (hClr : p._LedPin[h.LedClr]? = some pinClr)
    (v u : Nat) :
    p.a10cMasterCaut h v = some (p, [Call.digitalWrite pinWrn v]) ∧
    p.fa18cMasterCaut h v = some (p, [Call.digitalWrite pinWrn v]) ∧
    p.fa18cApuReady h v = some (p, [Call.digitalWrite pinClr v]) ∧
    twiceOpt (fun q => q.a10cMasterCaut h u) p
      = some (p, [Call.digitalWrite pinWrn u], [Call.digitalWrite pinWrn u]) ∧
    (p.a10cMasterCaut h u).bind (fun r => r.1.a10cMasterCaut h v)
      = some (p, [Call.digitalWrite pinWrn v]) ∧
    (p.fa18cMasterCaut h u).bind (fun r => r.1.fa18cMasterCaut h v)
      = some (p, [Call.digitalWrite pinWrn v]) ∧
    (p.fa18cApuReady h u).bind (fun r => r.1.fa18cApuReady h v)
      = some (p, [Call.digitalWrite pinClr v]) := by
  simp [DisplPnl.a10cMasterCaut, DisplPnl.fa18cMasterCaut, DisplPnl.fa18cApuReady,
    DisplPnl._setLed, twiceOpt, hWrn, hClr]

/-- The example of C12: pins 13, 12, 11, the warning LED first and the ready
LED second. -/
theorem led_writes_witness :
    ((⟨[13, 12, 11], 5⟩ : DisplPnl)._LedPin[header20x4.LedWrn]? = some 13 ∧
      (⟨[13, 12, 11], 5⟩ : DisplPnl)._LedPin[header20x4.LedClr]? = some 12) ∧
    DisplPnl.a10cMasterCaut header20x4 ⟨[13, 12, 11], 5⟩ 1
      = some (⟨[13, 12, 11], 5⟩, [Call.digitalWrite 13 1]) ∧
    DisplPnl.fa18cMasterCaut header20x4 ⟨[13, 12, 11], 5⟩ 0
      = some (⟨[13, 12, 11], 5⟩, [Call.digitalWrite 13 0]) ∧
    DisplPnl.fa18cApuReady header20x4 ⟨[13, 12, 11], 5⟩ 1
      = some (⟨[13, 12, 11], 5⟩, [Call.digitalWrite 12 1]) :=
  ⟨⟨by decide, by decide⟩,
   (led_writes header20x4 ⟨[13, 12, 11], 5⟩ 13 12 (by decide) (by decide) 1 0).1,
   by decide, by decide⟩

/-! ## The A-10C scratchpad -/

/-- C13: for every text, `a10cScrpad` makes exactly the calls `home` and
`print` of the whole text, unchanged, and leaves the controller as it was; it
sets no cursor and splits nothing, whatever the length of the text. -/
theorem a10cScrpad_calls (p : DisplPnl) (t : List Char) :
    p.a10cScrpad t = (p, [Call.home, Call.print t]) ∧
    cursorsOf (p.a10cScrpad t).2 = [] := by
  exact ⟨rfl, rfl⟩

/-! ## Repeated field updates -/

/-- C14: every F/A-18C field update, and `a10cScrpad`, called twice in a row
with the same arguments makes the same two calls the second time as the first
and leaves the controller (line counter and pin list) as it found it.  For the
option fields this holds for every `Id`: where the first call returns, the
second returns the same; and for `Id` in 0..4 both return. -/
theorem field_update_twice (p : DisplPnl) (t : List Char) (Id : Nat) :
    twice (fun q => q.fa18cScrpadStr1 t) p
      = (p, [Call.setCursor 0 0, Call.print t], [Call.setCursor 0 0, Call.print t]) ∧
    twice (fun q => q.fa18cScrpadStr2 t) p
      = (p, [Call.setCursor 2 0, Call.print t], [Call.setCursor 2 0, Call.print t]) ∧
    twice (fun q => q.fa18cScrpadNumber t) p
      = (p, [Call.setCursor 4 0, Call.print t], [Call.setCursor 4 0, Call.print t]) ∧
    twice (fun q => q.fa18cCom1 t) p
      = (p, [Call.setCursor 0 3, Call.print t], [Call.setCursor 0 3, Call.print t]) ∧
    twice (fun q => q.fa18cCom2 t) p
      = (p, [Call.setCursor 18 3, Call.print t], [Call.setCursor 18 3, Call.print t]) ∧
    twice (fun q => q.a10cScrpad t) p
      = (p, [Call.home, Call.print t], [Call.home, Call.print t]) ∧
    twiceOpt (fun q => q.fa18cOptionCue Id t) p
      = (p.fa18cOptionCue Id t).map (fun r => (p, r.2, r.2)) ∧
    twiceOpt (fun q => q.fa18cOptionStr Id t) p
      = (p.fa18cOptionStr Id t).map (fun r => (p, r.2, r.2)) ∧
    (Id < 5 → ∃ col row,
      twiceOpt (fun q => q.fa18cOptionCue Id t) p
        = some (p, [Call.setCursor col row, Call.print t],
            [Call.setCursor col row, Call.print t])) ∧
    (Id < 5 → ∃ col row,
      twiceOpt (fun q => q.fa18cOptionStr Id t) p
        = some (p, [Call.setCursor col row, Call.print t],
            [Call.setCursor col row, Call.print t])) := by
  refine ⟨rfl, rfl, rfl, rfl, rfl, rfl, ?_, ?_, ?_, ?_⟩
  · unfold twiceOpt DisplPnl.fa18cOptionCue
    cases FA18C_OPTION_CUE_COL[Id]? <;> cases FA18C_OPTION_ROW[Id]? <;> rfl
  · unfold twiceOpt DisplPnl.fa18cOptionStr
    cases FA18C_OPTION_STR_COL[Id]? <;> cases FA18C_OPTION_ROW[Id]? <;> rfl
  · intro hId
    interval_cases Id <;> exact ⟨_, _, rfl⟩
  · intro hId
    interval_cases Id <;> exact ⟨_, _, rfl⟩

/-! ## The width of the diagnostic line -/

/-- A number below 10 is one digit. -/
theorem decimal_length_one (n : Nat) (hn : n < 10) : (decimal n).length = 1 := by
  have hz : n / 10 = 0 := Nat.div_eq_of_lt hn
  simp [decimal, Nat.toDigits, Nat.toDigitsCore, hz]

/-- A number below `10 ^ e` has at most `e` digits. -/
theorem decimal_length_le (n e : Nat) (he : 0 < e) (hn : n < 10 ^ e) :
    (decimal n).length ≤ e :=
  Nat.toDigitsCore_length 10 (by decide) (n + 1) n e hn he

/-- A number below `10 ^ w` zero-padded to `w` digits has `w` digits. -/
theorem zeroPadded_length (w n : Nat) (hw : 0 < w) (hn : n < 10 ^ w) :
    (zeroPadded w n).length = w := by
  have := decimal_length_le n w hw hn
  simp only [zeroPadded, List.leftpad_length]
  omega

/-- The length of a keypad line. -/
theorem keyLine_length (c : Nat) (press : Bool) (kp key : Nat) (Dx : Directx.Event_t) :
    (keyLine c press kp key Dx).length
      = (zeroPadded 3 c).length + (decimal kp).length + (zeroPadded 2 key).length
        + (zeroPadded 2 Dx.Button).length + 12 := by
  simp [keyLine]
  omega

/-- The length of an encoder line. -/
theorem encLine_length (c : Nat) (press : Bool) (e : Nat) (dir : List Char)
    (Dx : Directx.Event_t) :
    (encLine c press e dir Dx).length
      = (zeroPadded 3 c).length + (decimal e).length + dir.length
        + (zeroPadded 2 Dx.Button).length + 11 := by
  simp [encLine]
  omega

/-- Within the bounds of the templates every line is 20 characters long. -/
theorem diagLine_length (c : Nat) (Ev : Event) (hEv : Ev.Id ≠ EventId.EvNone)
    (Dx : Directx.Event_t) (hc : c < 1000) (hkp : Ev.Kp.KpId < 10) (hkey : Ev.Kp.KeyId < 100)
    (henc : Ev.EncId < 10) (hb : Dx.Button < 100) :
    (diagLine c Ev Dx).length = 20 := by
  have h3 := zeroPadded_length 3 c (by decide) (by simpa using hc)
  have hk := zeroPadded_length 2 Ev.Kp.KeyId (by decide) (by simpa using hkey)
  have hbt := zeroPadded_length 2 Dx.Button (by decide) (by simpa using hb)
  have h1 := decimal_length_one _ hkp
  have h2 := decimal_length_one _ henc
  obtain ⟨id, k, e⟩ := Ev
  cases id
  · exact absurd rfl hEv
  all_goals
    simp only at h1 h2 hk
    simp [diagLine, keyLine_length, encLine_length, h3, hk, hbt, h1, h2]

/-- C15: for every valid event, of any of the six tags, with the counter
below 1000, the keypad below 10, the key below 100, the encoder below 10 and
the button below 100, the line `debugShowEvent` prints is exactly 20
characters long, so it fits with its terminator the `LCD_COLS + 1` characters
of `Buffer` on a display of 20 columns; and a keypad 10 or an encoder 10
gives a line of 21 characters, which does not fit. -/
theorem debugShowEvent_line_length (h : Header) (hrows : 0 < h.LCD_ROWS)
    (hcols : h.LCD_COLS = 20) (p : DisplPnl) (Ev : Event) (hEv : Ev.Id ≠ EventId.EvNone)
    (Dx : Directx.Event_t) (hc : p._debugLine < 1000) (hkp : Ev.Kp.KpId < 10)
    (hkey : Ev.Kp.KeyId < 100) (henc : Ev.EncId < 10) (hb : Dx.Button < 100) :
    (∃ line, callsOf (p.debugShowEvent h Ev Dx)
        = some [Call.setCursor 0 (p._debugLine % h.LCD_ROWS), Call.print line] ∧
      line.length = 20 ∧ fitsBuffer h line) ∧
    (∃ line, callsOf (p.debugShowEvent h ⟨EventId.EvKpPress, ⟨10, 5⟩, 0⟩ Dx)
        = some [Call.setCursor 0 (p._debugLine % h.LCD_ROWS), Call.print line] ∧
      line.length = 21 ∧ ¬ fitsBuffer h line) ∧
    (∃ line, callsOf (p.debugShowEvent h ⟨EventId.EvEncCwPress, ⟨0, 0⟩, 10⟩ Dx)
        = some [Call.setCursor 0 (p._debugLine % h.LCD_ROWS), Call.print line] ∧
      line.length = 21 ∧ ¬ fitsBuffer h line) := by
  have h3 := zeroPadded_length 3 p._debugLine (by decide) (by simpa using hc)
  have hbt := zeroPadded_length 2 Dx.Button (by decide) (by simpa using hb)
  refine ⟨⟨diagLine p._debugLine Ev Dx, ?_, ?_, ?_⟩,
    ⟨keyLine p._debugLine true 10 5 Dx, ?_, ?_, ?_⟩,
    ⟨encLine p._debugLine true 10 "CW ".toList Dx, ?_, ?_, ?_⟩⟩
  · rw [debugShowEvent_valid h hrows p Ev hEv Dx]; rfl
  · exact diagLine_length _ Ev hEv Dx hc hkp hkey henc hb
  · simp [fitsBuffer, hcols, diagLine_length _ Ev hEv Dx hc hkp hkey henc hb]
  · rw [debugShowEvent_kpPress h hrows p 10 5 0 Dx]; rfl
  · rw [keyLine_length, h3, hbt]; decide
  · rw [fitsBuffer, keyLine_length, h3, hbt, hcols]; decide
  · rw [debugShowEvent_cwPress h hrows p ⟨0, 0⟩ 10 Dx]; rfl
  · rw [encLine_length, h3, hbt]; decide
  · rw [fitsBuffer, encLine_length, h3, hbt, hcols]; decide

/-- The example of C15: on the 20 x 4 display the key line of the first call
is 20 characters long and fits; with keypad 10 it is 21 characters long. -/
theorem debugShowEvent_line_length_witness :
    (0 < header20x4.LCD_ROWS ∧ header20x4.LCD_COLS = 20 ∧
      (⟨EventId.EvKpPress, ⟨2, 5⟩, 1⟩ : Event).Id ≠ EventId.EvNone ∧
      (⟨[13, 12, 11], 0⟩ : DisplPnl)._debugLine < 1000 ∧
      (⟨EventId.EvKpPress, ⟨2, 5⟩, 1⟩ : Event).Kp.KpId < 10 ∧
      (⟨EventId.EvKpPress, ⟨2, 5⟩, 1⟩ : Event).Kp.KeyId < 100 ∧
      (⟨EventId.EvKpPress, ⟨2, 5⟩, 1⟩ : Event).EncId < 10 ∧
      (⟨Directx.Action.AcRelease, 9⟩ : Directx.Event_t).Button < 100) ∧
    (∃ line, callsOf (DisplPnl.debugShowEvent header20x4 ⟨[13, 12, 11], 0⟩
          ⟨EventId.EvKpPress, ⟨2, 5⟩, 1⟩ ⟨Directx.Action.AcRelease, 9⟩)
        = some [Call.setCursor 0 (0 % 4), Call.print line] ∧
      line.length = 20 ∧ fitsBuffer header20x4 line) ∧
    "000 Key:P2/05 Dx:R09".toList.length = 20 ∧
    callsOf (DisplPnl.debugShowEvent header20x4 ⟨[13, 12, 11], 0⟩
        ⟨EventId.EvKpPress, ⟨10, 5⟩, 1⟩ ⟨Directx.Action.AcRelease, 9⟩)
      = some [Call.setCursor 0 0, Call.print "000 Key:P10/05 Dx:R09".toList] ∧
    "000 Key:P10/05 Dx:R09".toList.length = 21 :=
  ⟨⟨by decide, by decide, by decide, by decide, by decide, by decide, by decide, by decide⟩,
   (debugShowEvent_line_length header20x4 (by decide) (by decide) ⟨[13, 12, 11], 0⟩
      ⟨EventId.EvKpPress, ⟨2, 5⟩, 1⟩ (by decide) ⟨Directx.Action.AcRelease, 9⟩
      (by decide) (by decide) (by decide) (by decide) (by decide)).1,
   by decide, by decide, by decide⟩

/-! ## The layout of the F/A-18C -/

/-- The anchors the field updates move the cursor to, in the order scratchpad
string 1, string 2, number, option cues 0..4, option strings 0..4, COMM1,
COMM2. -/
theorem fa18cFieldCursors_eq (p : DisplPnl) (t : List Char) :
    fa18cFieldCursors p t
      = [(0, 0), (2, 0), (4, 0), (19, 0), (19, 1), (19, 2), (0, 1), (0, 2),
         (15, 0), (15, 1), (15, 2), (1, 1), (1, 2), (0, 3), (18, 3)] := by
  rfl

/-- The positions of the separators, column first. -/
theorem fa18cSeparatorCursors_eq (p : DisplPnl) :
    fa18cSeparatorCursors p
      = [(12, 0), (14, 0), (5, 1), (14, 1), (5, 2), (14, 2), (2, 3), (17, 3)] := by
  rfl

/-- C16: each of the three option tables has exactly 5 entries; for every `Id`
in 0..4 the three lookups are defined and the cue and the string of that `Id`
are anchored on the same row; every anchor of the 15 fields and every position
of the 8 separators has its column below 20 and its row below 4. -/
theorem fa18c_tables_in_bounds (p : DisplPnl) (t : List Char) :
    (FA18C_OPTION_CUE_COL.length = 5 ∧ FA18C_OPTION_STR_COL.length = 5 ∧
      FA18C_OPTION_ROW.length = 5) ∧
    (∀ Id, Id < 5 → ∃ cueCol strCol row,
      FA18C_OPTION_CUE_COL[Id]? = some cueCol ∧ FA18C_OPTION_STR_COL[Id]? = some strCol ∧
      FA18C_OPTION_ROW[Id]? = some row ∧
      p.fa18cOptionCue Id t = some (p, [Call.setCursor cueCol row, Call.print t]) ∧
      p.fa18cOptionStr Id t = some (p, [Call.setCursor strCol row, Call.print t])) ∧
    (fa18cFieldCursors p t).length = 15 ∧
    (∀ cr ∈ fa18cFieldCursors p t, cr.1 < 20 ∧ cr.2 < 4) ∧
    (fa18cSeparatorCursors p).length = 8 ∧
    (∀ cr ∈ fa18cSeparatorCursors p, cr.1 < 20 ∧ cr.2 < 4) := by
  refine ⟨⟨rfl, rfl, rfl⟩, ?_, ?_, ?_, ?_, ?_⟩
  · intro Id hId
    interval_cases Id <;> exact ⟨_, _, _, rfl, rfl, rfl, rfl, rfl⟩
  · rw [fa18cFieldCursors_eq]; rfl
  · rw [fa18cFieldCursors_eq]; decide
  · rw [fa18cSeparatorCursors_eq]; rfl
  · rw [fa18cSeparatorCursors_eq]; decide

/-- C17: the 15 anchors of the fields are pairwise distinct, the 8 positions of
the separators are pairwise distinct, and no anchor of a field is the position
of a separator: the first character of a field is never written on a separator
of `fa18cStart` nor on the first cell of another field. -/
theorem fa18c_layout_no_collision (p : DisplPnl) (t : List Char) :
    (fa18cFieldCursors p t).length = 15 ∧ (fa18cFieldCursors p t).Nodup ∧
    (fa18cSeparatorCursors p).length = 8 ∧ (fa18cSeparatorCursors p).Nodup ∧
    (∀ cr ∈ fa18cFieldCursors p t, cr ∉ fa18cSeparatorCursors p) ∧
    (fa18cFieldCursors p t ++ fa18cSeparatorCursors p).Nodup := by
  rw [fa18cFieldCursors_eq, fa18cSeparatorCursors_eq]
  decide

/-! ## The mode label is centred -/

/-- C18: on a display of width `W = LCD_COLS`, for every name of length at
most `W - 4` (the label fits: `length name + 4 <= W`), `showMode` makes
exactly the calls `clear`, `setCursor(col, 0)` and `print` of the label, with
`col + length label <= W`, and the free space right of the label is the free
space left of it (`col`) or one more. -/
theorem showMode_stays_on_row (h : Header) (hcols : h.LCD_COLS < 256) (p : DisplPnl)
    (name : List Char) (hfit : name.length + 4 ≤ h.LCD_COLS) :
    ∃ col label, p.showMode h name
        = some (p, [Call.clear, Call.setCursor col 0, Call.print label]) ∧
      label = "* ".toList ++ name ++ " *".toList ∧
      col + label.length ≤ h.LCD_COLS ∧
      (h.LCD_COLS - (col + label.length) = col ∨
        h.LCD_COLS - (col + label.length) = col + 1) := by
  have hl : ("* ".toList ++ name ++ " *".toList).length = name.length + 4 := by simp
  refine ⟨(h.LCD_COLS - (name.length + 4)) / 2, _, showMode_fits h hcols p name hfit, rfl, ?_, ?_⟩
  · rw [hl]; omega
  · rw [hl]; omega

/-- The examples of C18: on the 20 x 4 display "TEST" leaves 6 cells on either
side and "A10C1" leaves 5 on the left and 6 on the right. -/
theorem showMode_stays_on_row_witness :
    (header20x4.LCD_COLS < 256 ∧ "A10C1".toList.length + 4 ≤ header20x4.LCD_COLS) ∧
    (∃ col label, DisplPnl.showMode header20x4 ⟨[13, 12, 11], 0⟩ "A10C1".toList
        = some (⟨[13, 12, 11], 0⟩, [Call.clear, Call.setCursor col 0, Call.print label]) ∧
      label = "* ".toList ++ "A10C1".toList ++ " *".toList ∧
      col + label.length ≤ header20x4.LCD_COLS ∧
      (header20x4.LCD_COLS - (col + label.length) = col ∨
        header20x4.LCD_COLS - (col + label.length) = col + 1)) ∧
    DisplPnl.showMode header20x4 ⟨[13, 12, 11], 0⟩ "A10C1".toList
      = some (⟨[13, 12, 11], 0⟩,
          [Call.clear, Call.setCursor 5 0, Call.print "* A10C1 *".toList]) ∧
    DisplPnl.showMode header20x4 ⟨[13, 12, 11], 0⟩ "TEST".toList
      = some (⟨[13, 12, 11], 0⟩,
          [Call.clear, Call.setCursor 6 0, Call.print "* TEST *".toList]) :=
  ⟨⟨by decide, by decide⟩,
   showMode_stays_on_row header20x4 (by decide) ⟨[13, 12, 11], 0⟩ "A10C1".toList (by decide),
   by decide, by decide⟩

end Ufc
